import Mathlib

/-!
Verification of the frame allocator (`src/kernel/arch/x86/frame_allocator.rs`)
and the four-level page-table code (`src/kernel/arch/x86/paging.rs`) of the
denuos kernel.  The Rust code is shallowly embedded: machine integers become
`Nat` (the code never relies on 64-bit wraparound on these paths), fallible
operations become `Option`/`Except`, and the physical memory written by the
page-table walk becomes an explicit map from page-aligned table addresses to
512-entry tables.
-/

/-- The size in bytes of a normal page (`PAGE_SIZE` in `frame_allocator.rs`). -/
def PAGE_SIZE : Nat := 4096

/-- Defines the first and last byte of a region (`MemRegion`). -/
abbrev MemRegion := Nat × Nat

/-- Regions of physical memory which cannot be allocated (`ProtectedRegions`,
a two-element array of `MemRegion`). -/
abbrev ProtectedRegions := MemRegion × MemRegion

/-- A unique reference to a physical memory page (`Frame`). -/
structure Frame where
  index : Nat
deriving DecidableEq

/-- `Frame::addr`: address of the start of this frame. -/
def Frame.addr (f : Frame) : Nat := f.index * PAGE_SIZE

/-- `Frame::containing`: the frame containing the given address. -/
def Frame.containing (addr : Nat) : Frame := ⟨addr / PAGE_SIZE⟩

/-- The frame-allocator state (`FrameAllocator`): a cursor `start`, a limit
`end` and the fixed protected-region list. -/
structure FrameAllocator where
  start : Nat
  «end» : Nat
  protected_regions : ProtectedRegions

/-- `FrameAllocator::next_page`: return the frame at the cursor and advance the
cursor by one page, or `none` once the cursor has reached the limit. -/
def FrameAllocator.next_page (s : FrameAllocator) :
    Option (Frame × FrameAllocator) :=
  if s.start ≥ s.«end» then none
  else some (Frame.containing s.start, { s with start := s.start + PAGE_SIZE })

/-- The protected-region test performed inside `FrameAllocator::alloc` for one
region: a candidate frame is rejected when it lies between the frame containing
the region's first byte and the frame containing its last byte (inclusive). -/
def regionBlocks (region : MemRegion) (f : Frame) : Bool :=
  (Frame.containing region.1).index ≤ f.index &&
    f.index ≤ (Frame.containing region.2).index

/-- The `for region in &self.protected_regions` test of `FrameAllocator::alloc`,
unrolled over the two protected regions. -/
def FrameAllocator.overlapsProtected (pr : ProtectedRegions) (f : Frame) : Bool :=
  regionBlocks pr.1 f || regionBlocks pr.2 f

/-- `FrameAllocator::alloc`: return the next page of the window that does not
overlap a protected region, advancing the cursor once per candidate examined.
`none` models the fatal `expect("Out of memory")` panic raised when
`next_page` runs out of window. -/
def FrameAllocator.alloc (s : FrameAllocator) : Option (Frame × FrameAllocator) :=
  match h : s.next_page with
  | none => none
  | some (f, s') =>
    if FrameAllocator.overlapsProtected s.protected_regions f then s'.alloc
    else some (f, s')
termination_by s.«end» - s.start
decreasing_by
  unfold FrameAllocator.next_page at h
  split at h
  · exact absurd h (by simp)
  · rename_i hlt
    injection h with h1
    rw [Prod.ext_iff] at h1
    obtain ⟨hf, hs⟩ := h1
    subst hs
    simp only [PAGE_SIZE]
    omega

/-- `FrameAllocator::free`: deallocation is intentionally not implemented
(`// TODO NYI`); the allocator state is unchanged. -/
def FrameAllocator.free (s : FrameAllocator) (_ : Frame) : FrameAllocator := s

/-- `FrameAllocator::free_pages`: approximate the remaining number of pages,
ignoring protected regions. -/
def FrameAllocator.free_pages (s : FrameAllocator) : Nat :=
  (s.«end» - s.start) / PAGE_SIZE + 1

/-- Harness for repeated allocation: perform `n` successive calls to
`FrameAllocator::alloc`, collecting the returned frames, and failing
if any call fails. -/
def FrameAllocator.allocs (s : FrameAllocator) :
    Nat → Option (List Frame × FrameAllocator)
  | 0 => some ([], s)
  | n + 1 =>
    match s.alloc with
    | none => none
    | some (f, s') =>
      match s'.allocs n with
      | none => none
      | some (fs, s'') => some (f :: fs, s'')

/-! ### Unfolding lemmas for `FrameAllocator.alloc` -/

/-- `alloc` fails when `next_page` fails. -/
lemma FrameAllocator.alloc_eq_none_np (s : FrameAllocator)
    (hnp : s.next_page = none) : s.alloc = none := by
  unfold FrameAllocator.alloc
  split
  · rfl
  · rename_i f1 s1 h
    rw [hnp] at h
    exact absurd h (by simp)

/-- `alloc` skips a candidate frame overlapping a protected region. -/
lemma FrameAllocator.alloc_eq_skip (s : FrameAllocator) (f : Frame)
    (s' : FrameAllocator) (hnp : s.next_page = some (f, s'))
    (hov : FrameAllocator.overlapsProtected s.protected_regions f = true) :
    s.alloc = s'.alloc := by
  conv_lhs => unfold FrameAllocator.alloc
  split
  · rename_i h
    rw [hnp] at h
    exact absurd h (by simp)
  · rename_i f1 s1 h
    rw [hnp] at h
    injection h with h1
    cases h1
    simp [hov]

/-- `alloc` returns a candidate frame overlapping no protected region. -/
lemma FrameAllocator.alloc_eq_take (s : FrameAllocator) (f : Frame)
    (s' : FrameAllocator) (hnp : s.next_page = some (f, s'))
    (hov : FrameAllocator.overlapsProtected s.protected_regions f = false) :
    s.alloc = some (f, s') := by
  unfold FrameAllocator.alloc
  split
  · rename_i h
    rw [hnp] at h
    exact absurd h (by simp)
  · rename_i f1 s1 h
    rw [hnp] at h
    injection h with h1
    cases h1
    simp [hov]

/-- `alloc` fails once the cursor has reached the limit. -/
lemma FrameAllocator.alloc_none (s : FrameAllocator) (h : s.«end» ≤ s.start) :
    s.alloc = none := by
  apply FrameAllocator.alloc_eq_none_np
  unfold FrameAllocator.next_page
  rw [if_pos (by omega)]

/-- `alloc` accepts the frame at the cursor when it is inside the window and
overlaps no protected region. -/
lemma FrameAllocator.alloc_accept (s : FrameAllocator) (hlt : s.start < s.«end»)
    (hov : FrameAllocator.overlapsProtected s.protected_regions
      (Frame.containing s.start) = false) :
    s.alloc = some (Frame.containing s.start,
      { s with start := s.start + PAGE_SIZE }) := by
  apply FrameAllocator.alloc_eq_take _ _ _ _ hov
  unfold FrameAllocator.next_page
  rw [if_neg (by omega)]

/-- Characterization of every successful `alloc`: the returned frame contains
some cursor position `start + k·PAGE_SIZE` inside the window, the cursor ends
up one page past it, the limit and the protected regions are unchanged, and
the frame passed the protected-region test. -/
lemma FrameAllocator.alloc_spec (s : FrameAllocator) :
    ∀ f s', s.alloc = some (f, s') →
    ∃ k, s.start + k * PAGE_SIZE < s.«end» ∧
      f = Frame.containing (s.start + k * PAGE_SIZE) ∧
      s'.start = s.start + k * PAGE_SIZE + PAGE_SIZE ∧
      s'.«end» = s.«end» ∧ s'.protected_regions = s.protected_regions ∧
      FrameAllocator.overlapsProtected s.protected_regions f = false := by
  induction s using FrameAllocator.alloc.induct with
  | case1 x hnp =>
    intro f s' hall
    rw [FrameAllocator.alloc_eq_none_np x hnp] at hall
    exact absurd hall (by simp)
  | case2 x f0 s0 hnp hov ih =>
    intro f s' hall
    rw [FrameAllocator.alloc_eq_skip x f0 s0 hnp hov] at hall
    obtain ⟨k, h1, h2, h3, h4, h5, h6⟩ := ih f s' hall
    unfold FrameAllocator.next_page at hnp
    split at hnp
    · exact absurd hnp (by simp)
    · rename_i hlt
      injection hnp with hnp1
      cases hnp1
      dsimp only at h1 h2 h3 h4 h5 h6
      have harg : x.start + PAGE_SIZE + k * PAGE_SIZE
          = x.start + (k + 1) * PAGE_SIZE := by ring
      rw [harg] at h1 h2 h3
      exact ⟨k + 1, h1, h2, h3, h4, h5, h6⟩
  | case3 x f0 s0 hnp hov =>
    intro f s' hall
    rw [FrameAllocator.alloc_eq_take x f0 s0 hnp
      (by simpa using hov)] at hall
    injection hall with h1
    cases h1
    unfold FrameAllocator.next_page at hnp
    split at hnp
    · exact absurd hnp (by simp)
    · rename_i hlt
      injection hnp with hnp1
      cases hnp1
      refine ⟨0, ?_, by norm_num, by norm_num, rfl, rfl, by simpa using hov⟩
      simp only [Nat.zero_mul, Nat.add_zero]
      omega

/-- Folding `free` over any list of frames leaves the allocator unchanged
(`FrameAllocator::free` is a no-op). -/
lemma FrameAllocator.free_foldl (s : FrameAllocator) (gs : List Frame) :
    gs.foldl FrameAllocator.free s = s := by
  induction gs with
  | nil => rfl
  | cons g gs ih => simpa [FrameAllocator.free] using ih

/-- Exhaustion of an exact window: over a window of exactly `N` pages none of
which overlaps a protected region, `N` allocations succeed and leave the
cursor at the limit. -/
lemma FrameAllocator.allocs_window (N : Nat) :
    ∀ s : FrameAllocator, s.«end» = s.start + N * PAGE_SIZE →
    (∀ j < N, FrameAllocator.overlapsProtected s.protected_regions
      (Frame.containing (s.start + j * PAGE_SIZE)) = false) →
    ∃ fs sN, s.allocs N = some (fs, sN) ∧ fs.length = N ∧
      sN.«end» ≤ sN.start := by
  induction N with
  | zero =>
    intro s hwin _
    exact ⟨[], s, rfl, rfl, by omega⟩
  | succ n ih =>
    intro s hwin hfree
    have hlt : s.start < s.«end» := by
      have : 0 < PAGE_SIZE := by norm_num [PAGE_SIZE]
      have : 0 < (n + 1) * PAGE_SIZE := by positivity
      omega
    have hov0 : FrameAllocator.overlapsProtected s.protected_regions
        (Frame.containing s.start) = false := by
      have := hfree 0 (by omega)
      simpa using this
    have hstep := FrameAllocator.alloc_accept s hlt hov0
    set s1 : FrameAllocator := { s with start := s.start + PAGE_SIZE } with hs1
    have hwin1 : s1.«end» = s1.start + n * PAGE_SIZE := by
      show s.«end» = s.start + PAGE_SIZE + n * PAGE_SIZE
      rw [hwin]
      ring
    have hfree1 : ∀ j < n, FrameAllocator.overlapsProtected s1.protected_regions
        (Frame.containing (s1.start + j * PAGE_SIZE)) = false := by
      intro j hj
      have := hfree (j + 1) (by omega)
      have harg : s.start + (j + 1) * PAGE_SIZE
          = s.start + PAGE_SIZE + j * PAGE_SIZE := by ring
      rw [harg] at this
      simpa [hs1] using this
    obtain ⟨fs, sN, hrun, hlen, hend⟩ := ih s1 hwin1 hfree1
    refine ⟨Frame.containing s.start :: fs, sN, ?_, by simpa using hlen, hend⟩
    unfold FrameAllocator.allocs
    rw [hstep]
    simp only [hrun]

/-- C2: an allocator over a window of exactly `N` pages, none overlapping a
protected region, yields `N` successful allocations and the `(N+1)`-th call
to `alloc` fails with the fatal out-of-memory error (modelled as `none`). -/
theorem FrameAllocator.monotonic_exhaustion (s : FrameAllocator) (N : Nat)
    (hwin : s.«end» = s.start + N * PAGE_SIZE)
    (hfree : ∀ j < N, FrameAllocator.overlapsProtected s.protected_regions
      (Frame.containing (s.start + j * PAGE_SIZE)) = false) :
    ∃ fs sN, s.allocs N = some (fs, sN) ∧ fs.length = N ∧
      sN.alloc = none := by
  obtain ⟨fs, sN, hrun, hlen, hend⟩ :=
    FrameAllocator.allocs_window N s hwin hfree
  exact ⟨fs, sN, hrun, hlen, FrameAllocator.alloc_none sN hend⟩

/-- Witness for C2: a two-page window with far-away protected regions yields
two allocations and then out-of-memory. -/
theorem FrameAllocator.monotonic_exhaustion_witness :
    ∃ fs sN, FrameAllocator.allocs
        ⟨0, 8192, ((0x100000, 0x100FFF), (0x200000, 0x200FFF))⟩ 2
        = some (fs, sN) ∧ fs.length = 2 ∧ sN.alloc = none :=
  FrameAllocator.monotonic_exhaustion
    ⟨0, 8192, ((0x100000, 0x100FFF), (0x200000, 0x200FFF))⟩ 2
    (by decide) (by decide)

/-- C1 counterexample: `free_pages` on the window `[0, 4096)` returns `2`,
not `(limit − cursor) / PAGE_SIZE = 1` as the claim states. -/
theorem FrameAllocator.free_pages_counterexample :
    FrameAllocator.free_pages ⟨0, 4096, ((8192, 8192), (8192, 8192))⟩ ≠
      ((4096 : Nat) - 0) / PAGE_SIZE := by
  decide

/-- C1 amended: `free_pages` returns `(limit − cursor) / PAGE_SIZE + 1`, one
more than the number of whole pages remaining between cursor and limit; in
particular on a window of exactly `N` remaining pages it returns `N + 1`. -/
theorem FrameAllocator.free_pages_eq (s : FrameAllocator) (N : Nat)
    (hwin : s.«end» = s.start + N * PAGE_SIZE) :
    s.free_pages = (s.«end» - s.start) / PAGE_SIZE + 1 ∧
      s.free_pages = N + 1 := by
  constructor
  · rfl
  · unfold FrameAllocator.free_pages
    rw [hwin]
    congr 1
    rw [Nat.add_sub_cancel_left, Nat.mul_div_cancel]
    norm_num [PAGE_SIZE]

/-- C3: every frame returned by a successful `alloc` on a page-aligned window
is page-aligned, lies within the window, and its byte range
`[addr, addr + PAGE_SIZE)` intersects no protected region. -/
theorem FrameAllocator.alloc_frame_valid (s : FrameAllocator) (f : Frame)
    (s' : FrameAllocator)
    (halign : s.start % PAGE_SIZE = 0) (halignEnd : s.«end» % PAGE_SIZE = 0)
    (h : s.alloc = some (f, s')) :
    f.addr % PAGE_SIZE = 0 ∧ s.start ≤ f.addr ∧
      f.addr + PAGE_SIZE ≤ s.«end» ∧
      (∀ r : MemRegion,
        r = s.protected_regions.1 ∨ r = s.protected_regions.2 →
        ∀ b, f.addr ≤ b → b < f.addr + PAGE_SIZE → ¬(r.1 ≤ b ∧ b ≤ r.2)) := by
  obtain ⟨k, hk, hf, _, _, _, hov⟩ := FrameAllocator.alloc_spec s f s' h
  simp only [PAGE_SIZE] at halign halignEnd hk
  have haddr : f.addr = s.start + k * 4096 := by
    rw [hf]
    simp only [Frame.addr, Frame.containing, PAGE_SIZE]
    omega
  refine ⟨?_, by omega, ?_, ?_⟩
  · show f.index * PAGE_SIZE % PAGE_SIZE = 0
    simp
  · simp only [PAGE_SIZE]
    omega
  · intro r hr b hb1 hb2 hcontra
    have hblock : regionBlocks r f = false := by
      rcases hr with hr | hr <;> subst hr
      · exact (Bool.or_eq_false_iff.mp hov).1
      · exact (Bool.or_eq_false_iff.mp hov).2
    have hbdiv : b / PAGE_SIZE = f.index := by
      apply Nat.div_eq_of_lt_le
      · calc f.index * PAGE_SIZE = f.addr := rfl
          _ ≤ b := hb1
      · calc b < f.addr + PAGE_SIZE := hb2
          _ = (f.index + 1) * PAGE_SIZE := by
            show f.index * PAGE_SIZE + PAGE_SIZE = _
            ring
    have h1 : r.1 / PAGE_SIZE ≤ f.index := by
      rw [← hbdiv]
      exact Nat.div_le_div_right hcontra.1
    have h2 : f.index ≤ r.2 / PAGE_SIZE := by
      rw [← hbdiv]
      exact Nat.div_le_div_right hcontra.2
    have : regionBlocks r f = true := by
      unfold regionBlocks Frame.containing
      simp only [Bool.and_eq_true, decide_eq_true_eq]
      exact ⟨h1, h2⟩
    rw [hblock] at this
    exact absurd this (by simp)

/-- Witness for C3 at a concrete allocator state. -/
theorem FrameAllocator.alloc_frame_valid_witness :
    let s : FrameAllocator := ⟨0, 8192, ((0x100000, 0x100FFF), (0x200000, 0x200FFF))⟩
    (Frame.addr ⟨0⟩) % PAGE_SIZE = 0 ∧ s.start ≤ Frame.addr ⟨0⟩ ∧
      Frame.addr ⟨0⟩ + PAGE_SIZE ≤ s.«end» ∧
      (∀ r : MemRegion,
        r = s.protected_regions.1 ∨ r = s.protected_regions.2 →
        ∀ b, Frame.addr ⟨0⟩ ≤ b → b < Frame.addr ⟨0⟩ + PAGE_SIZE →
          ¬(r.1 ≤ b ∧ b ≤ r.2)) :=
  FrameAllocator.alloc_frame_valid
    ⟨0, 8192, ((0x100000, 0x100FFF), (0x200000, 0x200FFF))⟩ ⟨0⟩
    ⟨4096, 8192, ((0x100000, 0x100FFF), (0x200000, 0x200FFF))⟩
    (by decide) (by decide)
    (FrameAllocator.alloc_accept _ (by decide) (by decide))

/-- One call made against the allocator in a trace: an `alloc()` or a
(no-op) `free(frame)`. -/
inductive AllocOp where
  | alloc
  | free (f : Frame)

/-- Run a whole trace of interleaved `alloc`/`free` calls against the
allocator, collecting every frame returned by a successful `alloc`.  A
failed `alloc` is the fatal out-of-memory panic, after which no further
call happens. -/
def FrameAllocator.run (s : FrameAllocator) :
    List AllocOp → List Frame × FrameAllocator
  | [] => ([], s)
  | .free g :: ops => (s.free g).run ops
  | .alloc :: ops =>
    match s.alloc with
    | none => ([], s)
    | some (f, s') => (f :: (s'.run ops).1, (s'.run ops).2)

/-- Every frame returned during a trace contains a cursor position at or
beyond the starting cursor. -/
lemma FrameAllocator.run_lb (ops : List AllocOp) :
    ∀ s : FrameAllocator, ∀ f ∈ (s.run ops).1,
      s.start / PAGE_SIZE ≤ f.index := by
  induction ops with
  | nil =>
    intro s f hf
    simp [FrameAllocator.run] at hf
  | cons op ops ih =>
    intro s f hf
    cases op with
    | free g =>
      exact ih (s.free g) f hf
    | alloc =>
      cases halloc : s.alloc with
      | none =>
        rw [show (s.run (.alloc :: ops)).1 = [] from by
          simp [FrameAllocator.run, halloc]] at hf
        simp at hf
      | some p =>
        obtain ⟨f0, s'⟩ := p
        rw [show (s.run (.alloc :: ops)).1 = f0 :: (s'.run ops).1 from by
          simp [FrameAllocator.run, halloc]] at hf
        obtain ⟨k, hk, hf0, hs, _, _, _⟩ :=
          FrameAllocator.alloc_spec s f0 s' halloc
        rcases List.mem_cons.mp hf with rfl | hf
        · rw [hf0]
          exact Nat.div_le_div_right (Nat.le_add_right _ _)
        · have h1 := ih s' f hf
          have h2 : s.start / PAGE_SIZE ≤ s'.start / PAGE_SIZE := by
            apply Nat.div_le_div_right
            omega
          omega

/-- C4: across any trace of `alloc()` and (no-op) `free()` calls on one
allocator, the frames returned by the successful `alloc()` calls are
pairwise distinct — no frame is ever issued twice. -/
theorem FrameAllocator.alloc_unique (s : FrameAllocator)
    (ops : List AllocOp) :
    ((s.run ops).1).Pairwise (· ≠ ·) := by
  induction ops generalizing s with
  | nil =>
    simp [FrameAllocator.run]
  | cons op ops ih =>
    cases op with
    | free g =>
      exact ih (s.free g)
    | alloc =>
      cases halloc : s.alloc with
      | none =>
        simp [FrameAllocator.run, halloc]
      | some p =>
        obtain ⟨f0, s'⟩ := p
        rw [show (s.run (.alloc :: ops)).1 = f0 :: (s'.run ops).1 from by
          simp [FrameAllocator.run, halloc]]
        refine List.Pairwise.cons ?_ (ih s')
        intro f' hf' hcontra
        obtain ⟨k, hk, hf0, hs, _, _, _⟩ :=
          FrameAllocator.alloc_spec s f0 s' halloc
        have hlb := FrameAllocator.run_lb ops s' f' hf'
        rw [← hcontra] at hlb
        have hidx : f0.index = (s.start + k * PAGE_SIZE) / PAGE_SIZE := by
          rw [hf0]
          rfl
        rw [hidx, hs,
          Nat.add_div_right _ (by norm_num [PAGE_SIZE] : 0 < PAGE_SIZE)]
          at hlb
        omega

/-- Witness for C1's amended claim at a concrete state. -/
theorem FrameAllocator.free_pages_eq_witness :
    FrameAllocator.free_pages ⟨0, 4096, ((8192, 8192), (8192, 8192))⟩
      = ((4096 : Nat) - 0) / PAGE_SIZE + 1 ∧
    FrameAllocator.free_pages ⟨0, 4096, ((8192, 8192), (8192, 8192))⟩ = 1 + 1 :=
  FrameAllocator.free_pages_eq ⟨0, 4096, ((8192, 8192), (8192, 8192))⟩ 1
    (by decide)

/-! ## Page tables (`paging.rs`)

A `PageEntry` is its raw `usize` value.  A `PageTable<L>` lives at a
page-aligned physical address; physical memory is modelled as a total map
`mem : Nat → Nat → Nat` sending a table address and an entry index to the
entry value stored there.  The `PhantomData` level tag of the Rust code
becomes an explicit `Nat` argument `L`. -/

/-- `PTE_ADDR_MASK`: bits 12–51 of a page-table entry hold the address. -/
def PTE_ADDR_MASK : Nat := 0x000ffffffffff000

/-- `PT1_INDEX`: mask of virtual-address bits 12–20. -/
def PT1_INDEX : Nat := 0x1ff <<< (0 * 9 + 12)

/-- `PT2_INDEX`: mask of virtual-address bits 21–29. -/
def PT2_INDEX : Nat := 0x1ff <<< (1 * 9 + 12)

/-- `PT3_INDEX`: mask of virtual-address bits 30–38. -/
def PT3_INDEX : Nat := 0x1ff <<< (2 * 9 + 12)

/-- `PT4_INDEX`: mask of virtual-address bits 39–47. -/
def PT4_INDEX : Nat := 0x1ff <<< (3 * 9 + 12)

/-- `NUM_ENTRIES`: a page table holds 512 entries. -/
def NUM_ENTRIES : Nat := 512

/-- `PRESENT` flag bit. -/
def PRESENT : Nat := 1 <<< 0

/-- `WRITE` flag bit. -/
def WRITE : Nat := 1 <<< 1

/-- `USER` flag bit. -/
def USER : Nat := 1 <<< 2

/-- `HUGE` flag bit. -/
def HUGE : Nat := 1 <<< 7

/-- `get_pt1_index`. -/
def get_pt1_index (val : Nat) : Nat := (val &&& PT1_INDEX) >>> 12

/-- `get_pt2_index`. -/
def get_pt2_index (val : Nat) : Nat := (val &&& PT2_INDEX) >>> 21

/-- `get_pt3_index`. -/
def get_pt3_index (val : Nat) : Nat := (val &&& PT3_INDEX) >>> 30

/-- `get_pt4_index`. -/
def get_pt4_index (val : Nat) : Nat := (val &&& PT4_INDEX) >>> 39

/-- `PageLevel::can_be_huge`: levels 2 and 3 may hold huge terminal
mappings. -/
def can_be_huge (L : Nat) : Bool := L == 2 || L == 3

/-- `PageEntry::get_addr`. -/
def PageEntry.get_addr (value : Nat) : Nat := value &&& PTE_ADDR_MASK

/-- `PageEntry::terminal`: level-1 entries are always terminal; level-2/3
entries are terminal when their `HUGE` flag is set; level-4 entries never. -/
def PageEntry.terminal (L : Nat) (value : Nat) : Bool :=
  if L == 1 then true
  else if can_be_huge L then (value &&& HUGE) == HUGE
  else false

/-- `PageEntry::present`. -/
def PageEntry.present (value : Nat) : Bool := (value &&& PRESENT) == PRESENT

/-- `PageEntry::points_to_table`. -/
def PageEntry.points_to_table (L : Nat) (value : Nat) : Bool :=
  PageEntry.present value && !PageEntry.terminal L value

/-- The machine state seen by the paging code: the global frame allocator and
physical memory viewed as page-table storage. -/
structure Machine where
  falloc : FrameAllocator
  mem : Nat → Nat → Nat

/-- Fatal errors of the paging/allocation path: `expect("Out of memory")`,
`expect("Memory already mapped to")`, and the (provably unreachable)
`unwrap()` after installing a fresh table. -/
inductive KernelError where
  | outOfMemory
  | mappingConflict
  | unwrapFailed
deriving DecidableEq

/-- Store `value` into entry `i` of the table at address `a`. -/
def Machine.writeEntry (m : Machine) (a i value : Nat) : Machine :=
  { m with mem := fun b j =>
      if b = a then (if j = i then value else m.mem b j) else m.mem b j }

/-- `PageTable::new`: allocate a frame via the global allocator, zero-fill it
(`Frame::clear`), and use it as a fresh table.  Allocation failure is the
fatal out-of-memory error. -/
def PageTable.new (m : Machine) : Except KernelError (Nat × Machine) :=
  match m.falloc.alloc with
  | none => .error .outOfMemory
  | some (f, fa) =>
    .ok (f.addr,
      { falloc := fa,
        mem := fun b j => if b = f.addr then 0 else m.mem b j })

/-- `PageTable::map_mem` on the table of level `L` at address `a`: write a
terminal entry with the frame-aligned address, the caller's flags, a forced
`PRESENT` bit, and a forced `HUGE` bit when the level supports it. -/
def PageTable.map_mem (L a : Nat) (m : Machine) (index paddr : Nat)
    (flags : Nat) : Machine :=
  let v0 := paddr &&& PTE_ADDR_MASK
  let v1 := v0 ||| flags
  let v2 := v1 ||| PRESENT
  let v3 := if can_be_huge L then v2 ||| HUGE else v2
  m.writeEntry a index v3

/-- `PageTable::map_table` on the table of level `L` at address `a`: point
entry `index` at a next-level table, granting full passage flags
(`PRESENT | USER | WRITE`). -/
def PageTable.map_table (L a : Nat) (m : Machine) (index table : Nat) :
    Machine :=
  let v0 := table &&& PTE_ADDR_MASK
  let v1 := v0 ||| (PRESENT ||| USER ||| WRITE)
  m.writeEntry a index v1

/-- `PageTable::get_table_mut` on the table of level `L` at address `a`:
the address of the next-level table pointed to by entry `index`, when that
entry points to a table. -/
def PageTable.get_table_mut (L a : Nat) (m : Machine) (index : Nat) :
    Option Nat :=
  let entry := m.mem a index
  if PageEntry.points_to_table L entry then some (PageEntry.get_addr entry)
  else none

/-- `PageTable::get_new_table` on the table of level `L` at address `a`:
return the existing next-level table under entry `index`, failing fatally
when the present entry is a terminal leaf; otherwise allocate, zero and
install a fresh next-level table. -/
def PageTable.get_new_table (L a : Nat) (m : Machine) (index : Nat) :
    Except KernelError (Nat × Machine) :=
  if PageEntry.present (m.mem a index) then
    match PageTable.get_table_mut L a m index with
    | some t => .ok (t, m)
    | none => .error .mappingConflict
  else
    match PageTable.new m with
    | .error e => .error e
    | .ok (pt, m1) =>
      let m2 := PageTable.map_table L a m1 index pt
      match PageTable.get_table_mut L a m2 index with
      | some t => .ok (t, m2)
      | none => .error .unwrapFailed

/-- The top-level mapping facade `PT4`: owns the root (level-4) table. -/
structure PT4 where
  table : Nat

/-- `PT4::map_to_4k`: walk levels 4 → 3 → 2, then write the terminal entry at
level 1. -/
def PT4.map_to_4k (pt : PT4) (m : Machine) (vaddr paddr : Nat)
    (flags : Nat) : Except KernelError Machine := do
  let (t3, m) ← PageTable.get_new_table 4 pt.table m (get_pt4_index vaddr)
  let (t2, m) ← PageTable.get_new_table 3 t3 m (get_pt3_index vaddr)
  let (t1, m) ← PageTable.get_new_table 2 t2 m (get_pt2_index vaddr)
  return PageTable.map_mem 1 t1 m (get_pt1_index vaddr) paddr flags

/-- `PT4::map_to_2m`: walk levels 4 → 3, then write the terminal (huge) entry
at level 2. -/
def PT4.map_to_2m (pt : PT4) (m : Machine) (vaddr paddr : Nat)
    (flags : Nat) : Except KernelError Machine := do
  let (t3, m) ← PageTable.get_new_table 4 pt.table m (get_pt4_index vaddr)
  let (t2, m) ← PageTable.get_new_table 3 t3 m (get_pt3_index vaddr)
  return PageTable.map_mem 2 t2 m (get_pt2_index vaddr) paddr flags

/-- `PT4::map_to_1g`: walk level 4, then write the terminal (huge) entry at
level 3. -/
def PT4.map_to_1g (pt : PT4) (m : Machine) (vaddr paddr : Nat)
    (flags : Nat) : Except KernelError Machine := do
  let (t3, m) ← PageTable.get_new_table 4 pt.table m (get_pt4_index vaddr)
  return PageTable.map_mem 3 t3 m (get_pt3_index vaddr) paddr flags

/-- The level-3 table an address would be walked through: the table pointed
to by the root entry selected by the address's level-4 index. -/
def walkT3 (m : Machine) (r v : Nat) : Option Nat :=
  PageTable.get_table_mut 4 r m (get_pt4_index v)

/-- The level-2 table an address would be walked through: the table pointed
to by its level-3 entry. -/
def walkT2 (m : Machine) (r v : Nat) : Option Nat :=
  (walkT3 m r v).bind fun t3 =>
    PageTable.get_table_mut 3 t3 m (get_pt3_index v)

/-! ### Address decomposition (C7, C10) -/

/-- Masking with a shifted mask then shifting right equals shifting right then
masking. -/
lemma and_shiftLeft_shiftRight (v mask s : Nat) :
    (v &&& (mask <<< s)) >>> s = (v >>> s) &&& mask := by
  apply Nat.eq_of_testBit_eq
  intro j
  simp [Nat.testBit_shiftRight, Nat.testBit_and, Nat.testBit_shiftLeft,
    Nat.add_sub_cancel_left, Bool.and_left_comm, Bool.and_comm]

/-- `get_pt1_index` extracts bits 12–20. -/
lemma get_pt1_index_eq (v : Nat) :
    get_pt1_index v = (v >>> 12) &&& (2 ^ 9 - 1) := by
  have : PT1_INDEX = (2 ^ 9 - 1) <<< 12 := by norm_num [PT1_INDEX]
  rw [get_pt1_index, this, and_shiftLeft_shiftRight]

/-- `get_pt2_index` extracts bits 21–29. -/
lemma get_pt2_index_eq (v : Nat) :
    get_pt2_index v = (v >>> 21) &&& (2 ^ 9 - 1) := by
  have : PT2_INDEX = (2 ^ 9 - 1) <<< 21 := by norm_num [PT2_INDEX]
  rw [get_pt2_index, this, and_shiftLeft_shiftRight]

/-- `get_pt3_index` extracts bits 30–38. -/
lemma get_pt3_index_eq (v : Nat) :
    get_pt3_index v = (v >>> 30) &&& (2 ^ 9 - 1) := by
  have : PT3_INDEX = (2 ^ 9 - 1) <<< 30 := by norm_num [PT3_INDEX]
  rw [get_pt3_index, this, and_shiftLeft_shiftRight]

/-- `get_pt4_index` extracts bits 39–47. -/
lemma get_pt4_index_eq (v : Nat) :
    get_pt4_index v = (v >>> 39) &&& (2 ^ 9 - 1) := by
  have : PT4_INDEX = (2 ^ 9 - 1) <<< 39 := by norm_num [PT4_INDEX]
  rw [get_pt4_index, this, and_shiftLeft_shiftRight]

/-- C10: every level index extracted from any `usize` input is strictly below
`NUM_ENTRIES`, so all table accesses of the mapping operations are within the
512-entry arrays. -/
theorem get_index_bounds (v : Nat) :
    get_pt1_index v < NUM_ENTRIES ∧ get_pt2_index v < NUM_ENTRIES ∧
    get_pt3_index v < NUM_ENTRIES ∧ get_pt4_index v < NUM_ENTRIES := by
  refine ⟨?_, ?_, ?_, ?_⟩
  · rw [get_pt1_index_eq]
    have := Nat.and_lt_two_pow (v >>> 12) (show 2 ^ 9 - 1 < 2 ^ 9 by norm_num)
    simpa [NUM_ENTRIES] using this
  · rw [get_pt2_index_eq]
    have := Nat.and_lt_two_pow (v >>> 21) (show 2 ^ 9 - 1 < 2 ^ 9 by norm_num)
    simpa [NUM_ENTRIES] using this
  · rw [get_pt3_index_eq]
    have := Nat.and_lt_two_pow (v >>> 30) (show 2 ^ 9 - 1 < 2 ^ 9 by norm_num)
    simpa [NUM_ENTRIES] using this
  · rw [get_pt4_index_eq]
    have := Nat.and_lt_two_pow (v >>> 39) (show 2 ^ 9 - 1 < 2 ^ 9 by norm_num)
    simpa [NUM_ENTRIES] using this

/-- C7: recombining the four 9-bit level indices of a 48-bit virtual address
with a zero page offset reproduces the address's page-aligned base. -/
theorem index_roundtrip (v : Nat) (h : v < 2 ^ 48) :
    (get_pt4_index v <<< 39) ||| (get_pt3_index v <<< 30) |||
      (get_pt2_index v <<< 21) ||| (get_pt1_index v <<< 12)
      = v / PAGE_SIZE * PAGE_SIZE := by
  have hstep : (get_pt4_index v <<< 39) ||| (get_pt3_index v <<< 30) |||
      (get_pt2_index v <<< 21) ||| (get_pt1_index v <<< 12)
      = (v >>> 12) <<< 12 := by
    rw [get_pt1_index_eq, get_pt2_index_eq, get_pt3_index_eq, get_pt4_index_eq]
    apply Nat.eq_of_testBit_eq
    intro j
    simp only [Nat.testBit_or, Nat.testBit_shiftLeft, Nat.testBit_and,
      Nat.testBit_shiftRight, Nat.testBit_two_pow_sub_one, ge_iff_le]
    rcases Nat.lt_or_ge j 12 with hj | hj
    · simp [show ¬ 12 ≤ j by omega, show ¬ 21 ≤ j by omega,
        show ¬ 30 ≤ j by omega, show ¬ 39 ≤ j by omega]
    rcases Nat.lt_or_ge j 21 with hj2 | hj2
    · simp [hj, show 12 + (j - 12) = j by omega, show ¬ 21 ≤ j by omega,
        show ¬ 30 ≤ j by omega, show ¬ 39 ≤ j by omega,
        show j - 12 < 9 by omega]
    rcases Nat.lt_or_ge j 30 with hj3 | hj3
    · simp [hj, hj2, show 21 + (j - 21) = j by omega,
        show 12 + (j - 12) = j by omega, show ¬ 30 ≤ j by omega,
        show ¬ 39 ≤ j by omega, show j - 21 < 9 by omega,
        show ¬ j - 12 < 9 by omega]
    rcases Nat.lt_or_ge j 39 with hj4 | hj4
    · simp [hj, hj2, hj3, show 30 + (j - 30) = j by omega,
        show 12 + (j - 12) = j by omega, show ¬ 39 ≤ j by omega,
        show j - 30 < 9 by omega, show ¬ j - 12 < 9 by omega,
        show ¬ j - 21 < 9 by omega]
    rcases Nat.lt_or_ge j 48 with hj5 | hj5
    · simp [hj, hj2, hj3, hj4, show 39 + (j - 39) = j by omega,
        show 12 + (j - 12) = j by omega, show j - 39 < 9 by omega,
        show ¬ j - 12 < 9 by omega, show ¬ j - 21 < 9 by omega,
        show ¬ j - 30 < 9 by omega]
    · have hv : v < 2 ^ j :=
        lt_of_lt_of_le h (Nat.pow_le_pow_right (by norm_num) hj5)
      simp [Nat.testBit_lt_two_pow hv, show 12 + (j - 12) = j by omega,
        show ¬ j - 12 < 9 by omega, show ¬ j - 21 < 9 by omega,
        show ¬ j - 30 < 9 by omega, show ¬ j - 39 < 9 by omega]
  rw [hstep, Nat.shiftLeft_eq, Nat.shiftRight_eq_div_pow]
  norm_num [PAGE_SIZE]

/-- Witness for C7 at a concrete canonical address. -/
theorem index_roundtrip_witness :
    (0x123456789AB : Nat) < 2 ^ 48 ∧
    (get_pt4_index 0x123456789AB <<< 39) ||| (get_pt3_index 0x123456789AB <<< 30) |||
      (get_pt2_index 0x123456789AB <<< 21) ||| (get_pt1_index 0x123456789AB <<< 12)
      = 0x123456789AB / PAGE_SIZE * PAGE_SIZE :=
  ⟨by norm_num, index_roundtrip 0x123456789AB (by norm_num)⟩

/-! ### `get_new_table` unfolding lemmas -/

/-- Reduction of `Except` bind on a success value. -/
lemma exceptBindOk {ε α β : Type} (x : α) (f : α → Except ε β) :
    (Except.ok x >>= f) = f x := rfl

/-- Reduction of `Except` bind on an error. -/
lemma exceptBindError {ε α β : Type} (e : ε) (f : α → Except ε β) :
    ((Except.error e : Except ε α) >>= f) = Except.error e := rfl

/-- Reduction of `Except` map on an error. -/
lemma exceptMapError {ε α β : Type} (e : ε) (f : α → β) :
    (f <$> (Except.error e : Except ε α)) = Except.error e := rfl

/-- An entry that points to a table is present. -/
lemma PageEntry.present_of_points (L e : Nat)
    (hpt : PageEntry.points_to_table L e = true) :
    PageEntry.present e = true := by
  unfold PageEntry.points_to_table at hpt
  exact (Bool.and_eq_true_iff.mp hpt).1

/-- `get_new_table` on an entry that already points to a table returns that
table and leaves the machine unchanged. -/
lemma PageTable.gnt_present_points (L a : Nat) (m : Machine) (i : Nat)
    (hpt : PageEntry.points_to_table L (m.mem a i) = true) :
    PageTable.get_new_table L a m i
      = .ok (PageEntry.get_addr (m.mem a i), m) := by
  have hp : PageEntry.present (m.mem a i) = true :=
    PageEntry.present_of_points L _ hpt
  simp [PageTable.get_new_table, PageTable.get_table_mut, hp, hpt]

/-- `get_new_table` on a present entry that does not point to a table (a
terminal leaf) fails with the fatal mapping-conflict error. -/
lemma PageTable.gnt_present_conflict (L a : Nat) (m : Machine) (i : Nat)
    (hp : PageEntry.present (m.mem a i) = true)
    (hnpt : PageEntry.points_to_table L (m.mem a i) = false) :
    PageTable.get_new_table L a m i = .error .mappingConflict := by
  simp [PageTable.get_new_table, PageTable.get_table_mut, hp, hnpt]

/-- C8: `map_mem` stores the frame-aligned address ORed with the caller's
flags, forces the `PRESENT` bit, forces the `HUGE` bit exactly at levels 2
and 3 (never at level 1), replaces whatever the slot previously held, touches
no other entry and does not allocate. -/
theorem PageTable.map_mem_spec (L : Nat) (hL : L = 1 ∨ L = 2 ∨ L = 3)
    (m : Machine) (a index paddr flags : Nat) :
    (PageTable.map_mem L a m index paddr flags).mem a index
      = (paddr &&& PTE_ADDR_MASK) ||| flags ||| PRESENT |||
          (if L = 2 ∨ L = 3 then HUGE else 0) ∧
    (∀ b j, b ≠ a ∨ j ≠ index →
      (PageTable.map_mem L a m index paddr flags).mem b j = m.mem b j) ∧
    (PageTable.map_mem L a m index paddr flags).falloc = m.falloc := by
  refine ⟨?_, ?_, rfl⟩
  · rcases hL with rfl | rfl | rfl <;>
      simp [PageTable.map_mem, Machine.writeEntry, can_be_huge, Nat.or_assoc]
  · intro b j hbj
    rcases hbj with hb | hj
    · simp [PageTable.map_mem, Machine.writeEntry, hb]
    · by_cases hb : b = a
      · subst hb
        simp [PageTable.map_mem, Machine.writeEntry, hj]
      · simp [PageTable.map_mem, Machine.writeEntry, hb]

/-- A concrete machine whose tables are all empty. -/
def mwex : Machine := ⟨⟨0, 0, ((0, 0), (0, 0))⟩, fun _ _ => 0⟩

/-- Witness for C8 at level 1 on a concrete machine. -/
theorem PageTable.map_mem_spec_witness :
    (PageTable.map_mem 1 0 mwex 5 0x5000 2).mem 0 5
      = (0x5000 &&& PTE_ADDR_MASK) ||| 2 ||| PRESENT |||
        (if (1 : Nat) = 2 ∨ (1 : Nat) = 3 then HUGE else 0) :=
  (PageTable.map_mem_spec 1 (Or.inl rfl) mwex 0 5 0x5000 2).1

/-- C5: `map_to_4k` on an address whose level-3 entry already holds a present
terminal (huge, 1 GiB) mapping fails fatally with the mapping-conflict error,
returning no machine state at all. -/
theorem PT4.map_to_4k_huge_conflict (pt : PT4) (m : Machine)
    (vaddr paddr flags : Nat)
    (h4 : PageEntry.points_to_table 4
      (m.mem pt.table (get_pt4_index vaddr)) = true)
    (hpres : PageEntry.present
      (m.mem (PageEntry.get_addr (m.mem pt.table (get_pt4_index vaddr)))
        (get_pt3_index vaddr)) = true)
    (hhuge : PageEntry.terminal 3
      (m.mem (PageEntry.get_addr (m.mem pt.table (get_pt4_index vaddr)))
        (get_pt3_index vaddr)) = true) :
    pt.map_to_4k m vaddr paddr flags = .error .mappingConflict := by
  have ht3 := PageTable.gnt_present_points 4 pt.table m (get_pt4_index vaddr) h4
  have hnpt : PageEntry.points_to_table 3
      (m.mem (PageEntry.get_addr (m.mem pt.table (get_pt4_index vaddr)))
        (get_pt3_index vaddr)) = false := by
    unfold PageEntry.points_to_table
    rw [hhuge, hpres]
    rfl
  have hc := PageTable.gnt_present_conflict 3 _ m (get_pt3_index vaddr)
    hpres hnpt
  unfold PT4.map_to_4k
  rw [ht3]
  rw [exceptBindOk]
  dsimp only
  rw [hc]
  rw [exceptBindError]

/-- A concrete machine whose root table at address `0` points to a level-3
table at `0x1000` whose entry `0` holds a present huge (1 GiB) mapping. -/
def c5m : Machine :=
  ⟨⟨0, 0, ((0, 0), (0, 0))⟩,
    fun a i =>
      if a = 0 ∧ i = 0 then 0x1007
      else if a = 0x1000 ∧ i = 0 then PRESENT ||| HUGE
      else 0⟩

/-- Witness for C5 on the concrete machine `c5m`. -/
theorem PT4.map_to_4k_huge_conflict_witness :
    PT4.map_to_4k ⟨0⟩ c5m 0 0x2000 0 = .error .mappingConflict :=
  PT4.map_to_4k_huge_conflict ⟨0⟩ c5m 0 0x2000 0
    (by decide) (by decide) (by decide)

/-! ### Entry-value arithmetic -/

/-- Distributing a mask over a stored-address-plus-flags entry value. -/
lemma pe_and_const (t c d : Nat) :
    ((t &&& PTE_ADDR_MASK) ||| c) &&& d
      = (t &&& (PTE_ADDR_MASK &&& d)) ||| (c &&& d) := by
  rw [Nat.and_distrib_right, Nat.and_assoc]

/-- A page-aligned address below `2^52` is fixed by the entry address mask. -/
lemma aligned_mask_eq (a : Nat) (h1 : a % PAGE_SIZE = 0) (h2 : a < 2 ^ 52) :
    a &&& PTE_ADDR_MASK = a := by
  apply Nat.eq_of_testBit_eq
  intro j
  rw [Nat.testBit_and, show PTE_ADDR_MASK = (2 ^ 40 - 1) <<< 12 from by decide]
  simp only [Nat.testBit_shiftLeft, Nat.testBit_two_pow_sub_one, ge_iff_le]
  rcases Nat.lt_or_ge j 12 with hj | hj
  · have h3 : a % 2 ^ 12 = 0 := by
      rw [show (2 : Nat) ^ 12 = PAGE_SIZE from by norm_num [PAGE_SIZE]]
      exact h1
    have h5 : a.testBit j = false := by
      have h4 := Nat.testBit_mod_two_pow a 12 j
      rw [h3] at h4
      simpa [hj] using h4.symm
    simp [h5]
  rcases Nat.lt_or_ge j 52 with hj2 | hj2
  · simp [hj, show j - 12 < 40 by omega]
  · have h5 : a.testBit j = false :=
      Nat.testBit_lt_two_pow
        (lt_of_lt_of_le h2 (Nat.pow_le_pow_right (by norm_num) hj2))
    simp [h5]

/-- `get_addr` always yields a page-aligned value. -/
lemma PageEntry.get_addr_aligned (e : Nat) :
    PageEntry.get_addr e % PAGE_SIZE = 0 := by
  unfold PageEntry.get_addr
  rw [show PAGE_SIZE = 2 ^ 12 from by norm_num [PAGE_SIZE],
    ← Nat.and_pow_two_sub_one_eq_mod, Nat.and_assoc,
    show PTE_ADDR_MASK &&& (2 ^ 12 - 1) = 0 from by decide, Nat.and_zero]

/-- `get_addr` always yields a value below `2^52`. -/
lemma PageEntry.get_addr_lt (e : Nat) : PageEntry.get_addr e < 2 ^ 52 :=
  Nat.and_lt_two_pow e (show PTE_ADDR_MASK < 2 ^ 52 from by decide)

/-- A fresh passage entry (`map_table` value) is present. -/
lemma fresh_present (t : Nat) :
    PageEntry.present ((t &&& PTE_ADDR_MASK) ||| (PRESENT ||| USER ||| WRITE))
      = true := by
  unfold PageEntry.present
  rw [pe_and_const,
    show PTE_ADDR_MASK &&& PRESENT = 0 from by decide,
    show (PRESENT ||| USER ||| WRITE) &&& PRESENT = PRESENT from by decide,
    Nat.and_zero, Nat.zero_or]
  simp

/-- A fresh passage entry is not terminal at any level other than 1. -/
lemma fresh_terminal (L t : Nat) (hL : (L == 1) = false) :
    PageEntry.terminal L ((t &&& PTE_ADDR_MASK) ||| (PRESENT ||| USER ||| WRITE))
      = false := by
  unfold PageEntry.terminal
  rw [hL]
  simp only [Bool.false_eq_true, if_false]
  cases hcb : can_be_huge L
  · simp
  · simp only [if_true]
    rw [pe_and_const,
      show PTE_ADDR_MASK &&& HUGE = 0 from by decide,
      show (PRESENT ||| USER ||| WRITE) &&& HUGE = 0 from by decide,
      Nat.and_zero, Nat.zero_or]
    decide

/-- A fresh passage entry points to a table (levels 2–4). -/
lemma fresh_points_to_table (L t : Nat) (hL : (L == 1) = false) :
    PageEntry.points_to_table L
      ((t &&& PTE_ADDR_MASK) ||| (PRESENT ||| USER ||| WRITE)) = true := by
  unfold PageEntry.points_to_table
  rw [fresh_present, fresh_terminal L t hL]
  rfl

/-- `get_addr` of a fresh passage entry recovers the stored table address. -/
lemma fresh_get_addr (t : Nat) (ht : t &&& PTE_ADDR_MASK = t) :
    PageEntry.get_addr ((t &&& PTE_ADDR_MASK) ||| (PRESENT ||| USER ||| WRITE))
      = t := by
  unfold PageEntry.get_addr
  rw [pe_and_const, Nat.and_self,
    show (PRESENT ||| USER ||| WRITE) &&& PTE_ADDR_MASK = 0 from by decide,
    Nat.or_zero, ht]

/-- A fresh passage entry carries the full passage flags
`PRESENT | USER | WRITE` (low three bits all set). -/
lemma fresh_low_bits (t : Nat) :
    ((t &&& PTE_ADDR_MASK) ||| (PRESENT ||| USER ||| WRITE)) &&& 7 = 7 := by
  rw [pe_and_const, show PTE_ADDR_MASK &&& 7 = 0 from by decide,
    show (PRESENT ||| USER ||| WRITE) &&& 7 = 7 from by decide,
    Nat.and_zero, Nat.zero_or]

/-! ### Specifications of table allocation and `get_new_table` -/

/-- Specification of `PageTable::new` on an aligned allocator cursor: the
fresh table address is a page inside the allocator window, past all earlier
cursor positions, zero-filled, and nothing else in memory changes. -/
lemma PageTable.new_spec (m : Machine) (t : Nat) (m1 : Machine)
    (halign : m.falloc.start % PAGE_SIZE = 0)
    (hok : PageTable.new m = .ok (t, m1)) :
    m.falloc.start ≤ t ∧ t < m1.falloc.start ∧ t % PAGE_SIZE = 0 ∧
      t < m.falloc.«end» ∧ m1.falloc.start % PAGE_SIZE = 0 ∧
      m1.falloc.«end» = m.falloc.«end» ∧
      m1.falloc.protected_regions = m.falloc.protected_regions ∧
      (∀ j, m1.mem t j = 0) ∧
      (∀ b j, b ≠ t → m1.mem b j = m.mem b j) := by
  unfold PageTable.new at hok
  cases halloc : m.falloc.alloc with
  | none =>
    rw [halloc] at hok
    exact absurd hok (by simp)
  | some p =>
    obtain ⟨f, fa⟩ := p
    rw [halloc] at hok
    injection hok with h1
    rw [Prod.ext_iff] at h1
    obtain ⟨hft, hm1⟩ := h1
    obtain ⟨k, hk, hf, hfs, hfe, hfp, _⟩ := FrameAllocator.alloc_spec _ _ _ halloc
    subst hft
    subst hm1
    have haddr : f.addr = m.falloc.start + k * PAGE_SIZE := by
      rw [hf]
      simp only [Frame.addr, Frame.containing, PAGE_SIZE] at halign ⊢
      omega
    simp only [PAGE_SIZE] at haddr halign hk hfs
    refine ⟨by omega, ?_, ?_, by omega, ?_, hfe, hfp, ?_, ?_⟩
    · show f.addr < fa.start
      omega
    · show f.addr % PAGE_SIZE = 0
      simp [Frame.addr, Nat.mul_mod_left]
    · show fa.start % PAGE_SIZE = 0
      simp only [PAGE_SIZE]
      omega
    · intro j
      simp
    · intro b j hb
      simp [hb]

/-- Full specification of one successful `get_new_table` step at a level
`L ≠ 1` on a well-placed parent table `a`: the returned table `t` is aligned,
bounded by the new cursor, the parent entry points at it, and `t` is either
the pre-existing table of a present entry (machine unchanged) or a fresh
zero-filled table installed with full passage flags. -/
lemma PageTable.gnt_spec (L a : Nat) (m : Machine) (i t : Nat) (m' : Machine)
    (hL : (L == 1) = false)
    (ha : a < m.falloc.start)
    (halign : m.falloc.start % PAGE_SIZE = 0)
    (hend : m.falloc.«end» ≤ 2 ^ 52)
    (hold : PageEntry.points_to_table L (m.mem a i) = true →
      PageEntry.get_addr (m.mem a i) < m.falloc.start)
    (hok : PageTable.get_new_table L a m i = .ok (t, m')) :
    m.falloc.start ≤ m'.falloc.start ∧
      m'.falloc.start % PAGE_SIZE = 0 ∧
      m'.falloc.«end» = m.falloc.«end» ∧
      m'.falloc.protected_regions = m.falloc.protected_regions ∧
      t % PAGE_SIZE = 0 ∧ t < m'.falloc.start ∧ t < 2 ^ 52 ∧
      PageEntry.points_to_table L (m'.mem a i) = true ∧
      PageEntry.get_addr (m'.mem a i) = t ∧
      ((m' = m ∧ PageEntry.points_to_table L (m.mem a i) = true ∧
          t = PageEntry.get_addr (m.mem a i)) ∨
        (PageEntry.present (m.mem a i) = false ∧ m.falloc.start ≤ t ∧
          m'.mem a i = (t &&& PTE_ADDR_MASK) |||
            (PRESENT ||| USER ||| WRITE) ∧
          (∀ j, j ≠ i → m'.mem a j = m.mem a j) ∧
          (∀ j, m'.mem t j = 0) ∧
          (∀ b j, b ≠ a → b ≠ t → m'.mem b j = m.mem b j))) := by
  by_cases hp : PageEntry.present (m.mem a i) = true
  · by_cases hpt : PageEntry.points_to_table L (m.mem a i) = true
    · rw [PageTable.gnt_present_points L a m i hpt] at hok
      injection hok with h1
      rw [Prod.ext_iff] at h1
      obtain ⟨hta, hmm⟩ := h1
      subst hta
      subst hmm
      refine ⟨le_refl _, halign, rfl, rfl,
        PageEntry.get_addr_aligned _, hold hpt, PageEntry.get_addr_lt _,
        hpt, rfl, Or.inl ⟨rfl, hpt, rfl⟩⟩
    · have hpt' : PageEntry.points_to_table L (m.mem a i) = false :=
        (Bool.not_eq_true _).mp hpt
      rw [PageTable.gnt_present_conflict L a m i hp hpt'] at hok
      exact absurd hok (by simp)
  · have hp' : PageEntry.present (m.mem a i) = false :=
      (Bool.not_eq_true _).mp hp
    unfold PageTable.get_new_table at hok
    rw [hp'] at hok
    simp only [Bool.false_eq_true, if_false] at hok
    cases hnew : PageTable.new m with
    | error e =>
      rw [hnew] at hok
      exact absurd hok (by simp)
    | ok p =>
      obtain ⟨pt, m1⟩ := p
      rw [hnew] at hok
      obtain ⟨hle, hlt1, halignpt, hltend, halign1, hend1, hpr1, hzero, hframes⟩ :=
        PageTable.new_spec m pt m1 halign hnew
      have hptmask : pt &&& PTE_ADDR_MASK = pt :=
        aligned_mask_eq pt halignpt (lt_of_lt_of_le hltend hend)
      have hm2ai : (PageTable.map_table L a m1 i pt).mem a i
          = (pt &&& PTE_ADDR_MASK) ||| (PRESENT ||| USER ||| WRITE) := by
        simp [PageTable.map_table, Machine.writeEntry]
      have hgtm : PageTable.get_table_mut L a
          (PageTable.map_table L a m1 i pt) i = some pt := by
        unfold PageTable.get_table_mut
        show (if PageEntry.points_to_table L
            ((PageTable.map_table L a m1 i pt).mem a i) = true
          then some (PageEntry.get_addr
            ((PageTable.map_table L a m1 i pt).mem a i))
          else none) = some pt
        rw [hm2ai]
        rw [fresh_points_to_table L pt hL]
        rw [if_pos rfl]
        rw [fresh_get_addr pt hptmask]
      simp only [hgtm] at hok
      injection hok with h1
      rw [Prod.ext_iff] at h1
      obtain ⟨hta, hmm⟩ := h1
      subst hta
      subst hmm
      have hfa : (PageTable.map_table L a m1 i pt).falloc = m1.falloc := rfl
      have hanept : a ≠ pt := by omega
      refine ⟨by rw [hfa]; omega, by rw [hfa]; exact halign1,
        by rw [hfa]; exact hend1, by rw [hfa]; exact hpr1,
        halignpt, by rw [hfa]; exact hlt1,
        lt_of_lt_of_le hltend hend,
        by rw [hm2ai]; exact fresh_points_to_table L pt hL,
        by rw [hm2ai]; exact fresh_get_addr pt hptmask,
        Or.inr ⟨hp', hle, hm2ai, ?_, ?_, ?_⟩⟩
      · intro j hj
        have : (PageTable.map_table L a m1 i pt).mem a j = m1.mem a j := by
          simp only [PageTable.map_table, Machine.writeEntry]
          simp [hj]
        rw [this]
        exact hframes a j hanept
      · intro j
        have : (PageTable.map_table L a m1 i pt).mem pt j = m1.mem pt j := by
          simp only [PageTable.map_table, Machine.writeEntry]
          rw [if_neg (Ne.symm hanept)]
        rw [this]
        exact hzero j
      · intro b j hb1 hb2
        have : (PageTable.map_table L a m1 i pt).mem b j = m1.mem b j := by
          simp only [PageTable.map_table, Machine.writeEntry]
          rw [if_neg hb1]
        rw [this]
        exact hframes b j hb2

/-! ### Composite specification of `map_to_4k` -/

/-- An empty (all-zero) entry does not point to a table. -/
lemma PageEntry.points_zero (L : Nat) : PageEntry.points_to_table L 0 = false := by
  simp [PageEntry.points_to_table, PageEntry.present, PRESENT]

/-- `map_mem` leaves every other entry unchanged. -/
lemma PageTable.map_mem_other (L a : Nat) (m : Machine) (index paddr flags : Nat) :
    ∀ b j, b ≠ a ∨ j ≠ index →
      (PageTable.map_mem L a m index paddr flags).mem b j = m.mem b j := by
  intro b j hbj
  rcases hbj with hb | hj
  · simp [PageTable.map_mem, Machine.writeEntry, hb]
  · by_cases hb : b = a
    · subst hb
      simp [PageTable.map_mem, Machine.writeEntry, hj]
    · simp [PageTable.map_mem, Machine.writeEntry, hb]

/-- `map_mem` does not touch the allocator. -/
lemma PageTable.map_mem_falloc (L a : Nat) (m : Machine) (index paddr flags : Nat) :
    (PageTable.map_mem L a m index paddr flags).falloc = m.falloc := rfl

/-- The path-wellformedness hypothesis for one `map_to_4k` walk from root
`pt.table` for address `v`: the root and every table already installed on the
walk lie strictly below the allocator cursor and are pairwise distinct. -/
def PathWf (m : Machine) (r v : Nat) : Prop :=
  r < m.falloc.start ∧
  ∀ t3, PageTable.get_table_mut 4 r m (get_pt4_index v) = some t3 →
    t3 < m.falloc.start ∧ t3 ≠ r ∧
    ∀ t2, PageTable.get_table_mut 3 t3 m (get_pt3_index v) = some t2 →
      t2 < m.falloc.start ∧ t2 ≠ r ∧ t2 ≠ t3 ∧
      ∀ t1, PageTable.get_table_mut 2 t2 m (get_pt2_index v) = some t1 →
        t1 < m.falloc.start ∧ t1 ≠ r ∧ t1 ≠ t3 ∧ t1 ≠ t2

/-- Composite postcondition of a successful `map_to_4k`. -/
lemma PT4.map4k_post (pt : PT4) (m : Machine) (v paddr flags : Nat)
    (m' : Machine)
    (halign : m.falloc.start % PAGE_SIZE = 0)
    (hend : m.falloc.«end» ≤ 2 ^ 52)
    (hwf : PathWf m pt.table v)
    (hok : pt.map_to_4k m v paddr flags = .ok m') :
    ∃ t3 t2 t1,
      m.falloc.start ≤ m'.falloc.start ∧
      m'.falloc.start % PAGE_SIZE = 0 ∧
      m'.falloc.«end» = m.falloc.«end» ∧
      m'.falloc.protected_regions = m.falloc.protected_regions ∧
      PageEntry.points_to_table 4 (m'.mem pt.table (get_pt4_index v)) = true ∧
      PageEntry.get_addr (m'.mem pt.table (get_pt4_index v)) = t3 ∧
      PageEntry.points_to_table 3 (m'.mem t3 (get_pt3_index v)) = true ∧
      PageEntry.get_addr (m'.mem t3 (get_pt3_index v)) = t2 ∧
      PageEntry.points_to_table 2 (m'.mem t2 (get_pt2_index v)) = true ∧
      PageEntry.get_addr (m'.mem t2 (get_pt2_index v)) = t1 ∧
      t3 < m'.falloc.start ∧ t2 < m'.falloc.start ∧ t1 < m'.falloc.start ∧
      t3 ≠ pt.table ∧ t2 ≠ pt.table ∧ t2 ≠ t3 ∧
      t1 ≠ pt.table ∧ t1 ≠ t3 ∧ t1 ≠ t2 ∧
      (m'.mem pt.table (get_pt4_index v) = m.mem pt.table (get_pt4_index v) ∨
        m'.mem pt.table (get_pt4_index v)
          = (t3 &&& PTE_ADDR_MASK) ||| (PRESENT ||| USER ||| WRITE)) ∧
      ((m'.mem t3 (get_pt3_index v) = m.mem t3 (get_pt3_index v) ∧
          PageTable.get_table_mut 4 pt.table m (get_pt4_index v) = some t3) ∨
        m'.mem t3 (get_pt3_index v)
          = (t2 &&& PTE_ADDR_MASK) ||| (PRESENT ||| USER ||| WRITE)) ∧
      ((m'.mem t2 (get_pt2_index v) = m.mem t2 (get_pt2_index v) ∧
          PageTable.get_table_mut 4 pt.table m (get_pt4_index v) = some t3 ∧
          PageTable.get_table_mut 3 t3 m (get_pt3_index v) = some t2) ∨
        m'.mem t2 (get_pt2_index v)
          = (t1 &&& PTE_ADDR_MASK) ||| (PRESENT ||| USER ||| WRITE)) ∧
      ((PageEntry.points_to_table 4 (m.mem pt.table (get_pt4_index v)) = true ∧
          t3 = PageEntry.get_addr (m.mem pt.table (get_pt4_index v)) ∧
          t3 < m.falloc.start) ∨
        (m.falloc.start ≤ t3 ∧
          PageEntry.present (m.mem pt.table (get_pt4_index v)) = false)) ∧
      ((PageEntry.points_to_table 3 (m.mem t3 (get_pt3_index v)) = true ∧
          t2 = PageEntry.get_addr (m.mem t3 (get_pt3_index v)) ∧
          t2 < m.falloc.start ∧
          PageTable.get_table_mut 4 pt.table m (get_pt4_index v) = some t3) ∨
        m.falloc.start ≤ t2) ∧
      ((PageEntry.points_to_table 2 (m.mem t2 (get_pt2_index v)) = true ∧
          t1 = PageEntry.get_addr (m.mem t2 (get_pt2_index v)) ∧
          t1 < m.falloc.start ∧
          PageTable.get_table_mut 4 pt.table m (get_pt4_index v) = some t3 ∧
          PageTable.get_table_mut 3 t3 m (get_pt3_index v) = some t2) ∨
        m.falloc.start ≤ t1) ∧
      (m.falloc.start ≤ t3 → ∀ j, j ≠ get_pt3_index v → m'.mem t3 j = 0) ∧
      (m.falloc.start ≤ t2 → ∀ j, j ≠ get_pt2_index v → m'.mem t2 j = 0) ∧
      (∀ j, j ≠ get_pt4_index v → m'.mem pt.table j = m.mem pt.table j) ∧
      (t3 < m.falloc.start → ∀ j, j ≠ get_pt3_index v →
        m'.mem t3 j = m.mem t3 j) ∧
      (t2 < m.falloc.start → ∀ j, j ≠ get_pt2_index v →
        m'.mem t2 j = m.mem t2 j) ∧
      (∀ b j, b ≠ pt.table → b ≠ t3 → b ≠ t2 → b ≠ t1 →
        m'.mem b j = m.mem b j) := by
  obtain ⟨hr, hold3⟩ := hwf
  unfold PT4.map_to_4k at hok
  cases hgnt4 : PageTable.get_new_table 4 pt.table m (get_pt4_index v) with
  | error e =>
    rw [hgnt4, exceptBindError] at hok
    exact absurd hok (by simp)
  | ok p =>
  obtain ⟨t3, mA⟩ := p
  rw [hgnt4, exceptBindOk] at hok
  dsimp only at hok
  cases hgnt3 : PageTable.get_new_table 3 t3 mA (get_pt3_index v) with
  | error e =>
    rw [hgnt3, exceptBindError] at hok
    exact absurd hok (by simp)
  | ok p2 =>
  obtain ⟨t2, mB⟩ := p2
  rw [hgnt3, exceptBindOk] at hok
  dsimp only at hok
  cases hgnt2 : PageTable.get_new_table 2 t2 mB (get_pt2_index v) with
  | error e =>
    rw [hgnt2, exceptBindError] at hok
    exact absurd hok (by simp)
  | ok p3 =>
  obtain ⟨t1, mC⟩ := p3
  rw [hgnt2, exceptBindOk] at hok
  dsimp only at hok
  have hok2 : Except.ok (PageTable.map_mem 1 t1 mC (get_pt1_index v) paddr flags)
      = Except.ok m' := hok
  injection hok2 with hm'
  -- step 1 specification
  have hold4 : PageEntry.points_to_table 4 (m.mem pt.table (get_pt4_index v)) = true →
      PageEntry.get_addr (m.mem pt.table (get_pt4_index v)) < m.falloc.start := by
    intro hpt
    have hw : PageTable.get_table_mut 4 pt.table m (get_pt4_index v)
        = some (PageEntry.get_addr (m.mem pt.table (get_pt4_index v))) := by
      unfold PageTable.get_table_mut
      simp [hpt]
    exact (hold3 _ hw).1
  obtain ⟨hAmono, hAalign, hAend, hApr, hT3align, hT3ltA, hT3lt52, hE4p, hE4a, hsplit1⟩ :=
    PageTable.gnt_spec 4 pt.table m (get_pt4_index v) t3 mA (by decide) hr halign hend
      hold4 hgnt4
  have hw3of1 : PageEntry.points_to_table 4 (m.mem pt.table (get_pt4_index v)) = true →
      t3 = PageEntry.get_addr (m.mem pt.table (get_pt4_index v)) →
      PageTable.get_table_mut 4 pt.table m (get_pt4_index v) = some t3 := by
    intro hpt hta
    unfold PageTable.get_table_mut
    simp [hpt, hta]
  have hF1frame : ∀ b j, b ≠ t3 → (b ≠ pt.table ∨ j ≠ get_pt4_index v) →
      mA.mem b j = m.mem b j := by
    rcases hsplit1 with ⟨heq, _, _⟩ | ⟨_, _, _, hoth, _, hfr⟩
    · intro b j _ _
      rw [heq]
    · intro b j hbt hor
      rcases hor with hba | hj
      · exact hfr b j hba hbt
      · by_cases hba : b = pt.table
        · subst hba
          exact hoth j hj
        · exact hfr b j hba hbt
  have hF1zero : m.falloc.start ≤ t3 → ∀ j, mA.mem t3 j = 0 := by
    rcases hsplit1 with ⟨heq, hpt, hta⟩ | ⟨_, _, _, _, hzr, _⟩
    · intro hge
      have hlt : t3 < m.falloc.start := by
        rw [hta]
        exact hold4 hpt
      omega
    · intro _ j
      exact hzr j
  have ht3r : t3 ≠ pt.table := by
    rcases hsplit1 with ⟨heq, hpt, hta⟩ | ⟨_, hge, _⟩
    · exact (hold3 _ (hw3of1 hpt hta)).2.1
    · omega
  have hF1disc : (PageEntry.points_to_table 4 (m.mem pt.table (get_pt4_index v)) = true ∧
      t3 = PageEntry.get_addr (m.mem pt.table (get_pt4_index v)) ∧
      t3 < m.falloc.start) ∨
      (m.falloc.start ≤ t3 ∧
        PageEntry.present (m.mem pt.table (get_pt4_index v)) = false) := by
    rcases hsplit1 with ⟨heq, hpt, hta⟩ | ⟨hpre, hge, _⟩
    · refine Or.inl ⟨hpt, hta, ?_⟩
      rw [hta]
      exact hold4 hpt
    · exact Or.inr ⟨hge, hpre⟩
  have hF1entry : mA.mem pt.table (get_pt4_index v) = m.mem pt.table (get_pt4_index v) ∨
      mA.mem pt.table (get_pt4_index v)
        = (t3 &&& PTE_ADDR_MASK) ||| (PRESENT ||| USER ||| WRITE) := by
    rcases hsplit1 with ⟨heq, _, _⟩ | ⟨_, _, hval, _, _, _⟩
    · rw [heq]
      exact Or.inl rfl
    · exact Or.inr hval
  -- step 2 specification
  have hold3' : PageEntry.points_to_table 3 (mA.mem t3 (get_pt3_index v)) = true →
      PageEntry.get_addr (mA.mem t3 (get_pt3_index v)) < mA.falloc.start := by
    intro hpt3
    rcases hsplit1 with ⟨heq, hpt, hta⟩ | ⟨_, _, _, _, hzr, _⟩
    · rw [heq] at hpt3 ⊢
      have hw2 : PageTable.get_table_mut 3 t3 m (get_pt3_index v)
          = some (PageEntry.get_addr (m.mem t3 (get_pt3_index v))) := by
        unfold PageTable.get_table_mut
        simp [hpt3]
      exact ((hold3 _ (hw3of1 hpt hta)).2.2 _ hw2).1
    · rw [hzr (get_pt3_index v), PageEntry.points_zero] at hpt3
      exact absurd hpt3 (by simp)
  obtain ⟨hBmono, hBalign, hBend, hBpr, hT2align, hT2ltB, hT2lt52, hE3p, hE3a, hsplit2⟩ :=
    PageTable.gnt_spec 3 t3 mA (get_pt3_index v) t2 mB (by decide) hT3ltA hAalign
      (by rw [hAend]; exact hend) hold3' hgnt3
  have hold21 : PageEntry.points_to_table 3 (mA.mem t3 (get_pt3_index v)) = true →
      mA = m := by
    intro hpt3
    rcases hsplit1 with ⟨heq, _, _⟩ | ⟨_, _, _, _, hzr, _⟩
    · exact heq
    · rw [hzr (get_pt3_index v), PageEntry.points_zero] at hpt3
      exact absurd hpt3 (by simp)
  have hw2of2 : PageEntry.points_to_table 3 (m.mem t3 (get_pt3_index v)) = true →
      t2 = PageEntry.get_addr (m.mem t3 (get_pt3_index v)) →
      PageTable.get_table_mut 3 t3 m (get_pt3_index v) = some t2 := by
    intro hpt hta
    unfold PageTable.get_table_mut
    simp [hpt, hta]
  have hF2frame : ∀ b j, b ≠ t2 → (b ≠ t3 ∨ j ≠ get_pt3_index v) →
      mB.mem b j = mA.mem b j := by
    rcases hsplit2 with ⟨heq, _, _⟩ | ⟨_, _, _, hoth, _, hfr⟩
    · intro b j _ _
      rw [heq]
    · intro b j hbt hor
      rcases hor with hba | hj
      · exact hfr b j hba hbt
      · by_cases hba : b = t3
        · subst hba
          exact hoth j hj
        · exact hfr b j hba hbt
  have hF2disc : (PageEntry.points_to_table 3 (m.mem t3 (get_pt3_index v)) = true ∧
      t2 = PageEntry.get_addr (m.mem t3 (get_pt3_index v)) ∧
      t2 < m.falloc.start ∧
      PageTable.get_table_mut 4 pt.table m (get_pt4_index v) = some t3) ∨
      m.falloc.start ≤ t2 := by
    rcases hsplit2 with ⟨heq2, hpt3, hta2⟩ | ⟨_, hge, _⟩
    · have hAm : mA = m := hold21 hpt3
      have hlt : t2 < mA.falloc.start := by
        rw [hta2]
        exact hold3' hpt3
      rw [hAm] at hpt3 hta2 hlt
      rcases hsplit1 with ⟨heq, hpt, hta⟩ | ⟨_, _, _, _, hzr, _⟩
      · exact Or.inl ⟨hpt3, hta2, hlt, hw3of1 hpt hta⟩
      · rw [hAm] at hzr
        rw [hzr (get_pt3_index v), PageEntry.points_zero] at hpt3
        exact absurd hpt3 (by simp)
    · exact Or.inr (le_trans hAmono hge)
  have hF2zero : m.falloc.start ≤ t2 → ∀ j, mB.mem t2 j = 0 := by
    intro hge j
    rcases hsplit2 with ⟨heq2, hpt3, hta2⟩ | ⟨_, _, _, _, hzr, _⟩
    · exfalso
      have hAm : mA = m := hold21 hpt3
      have hlt : t2 < mA.falloc.start := by
        rw [hta2]
        exact hold3' hpt3
      rw [hAm] at hlt
      omega
    · exact hzr j
  have ht2r : t2 ≠ pt.table := by
    rcases hsplit2 with ⟨heq2, hpt3A, hta2A⟩ | ⟨_, hge, _⟩
    · rcases hsplit1 with ⟨heq, hpt, hta⟩ | ⟨_, _, _, _, hzr, _⟩
      · rw [heq] at hpt3A hta2A
        exact ((hold3 _ (hw3of1 hpt hta)).2.2 _ (hw2of2 hpt3A hta2A)).2.1
      · rw [hzr (get_pt3_index v), PageEntry.points_zero] at hpt3A
        exact absurd hpt3A (by simp)
    · omega
  have ht2t3 : t2 ≠ t3 := by
    rcases hsplit2 with ⟨heq2, hpt3A, hta2A⟩ | ⟨_, hge, _⟩
    · rcases hsplit1 with ⟨heq, hpt, hta⟩ | ⟨_, _, _, _, hzr, _⟩
      · rw [heq] at hpt3A hta2A
        exact ((hold3 _ (hw3of1 hpt hta)).2.2 _ (hw2of2 hpt3A hta2A)).2.2.1
      · rw [hzr (get_pt3_index v), PageEntry.points_zero] at hpt3A
        exact absurd hpt3A (by simp)
    · omega
  have hF2entry : (mB.mem t3 (get_pt3_index v) = m.mem t3 (get_pt3_index v) ∧
      PageTable.get_table_mut 4 pt.table m (get_pt4_index v) = some t3) ∨
      mB.mem t3 (get_pt3_index v)
        = (t2 &&& PTE_ADDR_MASK) ||| (PRESENT ||| USER ||| WRITE) := by
    rcases hsplit2 with ⟨heq2, hpt3A, _⟩ | ⟨_, _, hval, _, _, _⟩
    · have hAm := hold21 hpt3A
      rcases hsplit1 with ⟨heq, hpt, hta⟩ | ⟨_, _, _, _, hzr, _⟩
      · exact Or.inl ⟨by rw [heq2, hAm], hw3of1 hpt hta⟩
      · rw [hzr (get_pt3_index v), PageEntry.points_zero] at hpt3A
        exact absurd hpt3A (by simp)
    · exact Or.inr hval
  -- step 3 specification
  have hold2' : PageEntry.points_to_table 2 (mB.mem t2 (get_pt2_index v)) = true →
      PageEntry.get_addr (mB.mem t2 (get_pt2_index v)) < mB.falloc.start := by
    intro hpt2
    rcases hsplit2 with ⟨heq2, hpt3A, hta2A⟩ | ⟨_, _, _, _, hzr2, _⟩
    · rw [heq2] at hpt2 ⊢
      rcases hsplit1 with ⟨heq, hpt, hta⟩ | ⟨_, _, _, _, hzr, _⟩
      · rw [heq] at hpt2 hpt3A hta2A ⊢
        have hw1 : PageTable.get_table_mut 2 t2 m (get_pt2_index v)
            = some (PageEntry.get_addr (m.mem t2 (get_pt2_index v))) := by
          unfold PageTable.get_table_mut
          simp [hpt2]
        exact (((hold3 _ (hw3of1 hpt hta)).2.2 _ (hw2of2 hpt3A hta2A)).2.2.2 _ hw1).1
      · rw [hzr (get_pt3_index v), PageEntry.points_zero] at hpt3A
        exact absurd hpt3A (by simp)
    · rw [hzr2 (get_pt2_index v), PageEntry.points_zero] at hpt2
      exact absurd hpt2 (by simp)
  obtain ⟨hCmono, hCalign, hCend, hCpr, hT1align, hT1ltC, hT1lt52, hE2p, hE2a, hsplit3⟩ :=
    PageTable.gnt_spec 2 t2 mB (get_pt2_index v) t1 mC (by decide) hT2ltB hBalign
      (by rw [hBend, hAend]; exact hend) hold2' hgnt2
  have hold32 : PageEntry.points_to_table 2 (mB.mem t2 (get_pt2_index v)) = true →
      mB = mA ∧ mA = m := by
    intro hpt2
    rcases hsplit2 with ⟨heq2, hpt3A, _⟩ | ⟨_, _, _, _, hzr2, _⟩
    · exact ⟨heq2, hold21 hpt3A⟩
    · rw [hzr2 (get_pt2_index v), PageEntry.points_zero] at hpt2
      exact absurd hpt2 (by simp)
  have hF3frame : ∀ b j, b ≠ t1 → (b ≠ t2 ∨ j ≠ get_pt2_index v) →
      mC.mem b j = mB.mem b j := by
    rcases hsplit3 with ⟨heq, _, _⟩ | ⟨_, _, _, hoth, _, hfr⟩
    · intro b j _ _
      rw [heq]
    · intro b j hbt hor
      rcases hor with hba | hj
      · exact hfr b j hba hbt
      · by_cases hba : b = t2
        · subst hba
          exact hoth j hj
        · exact hfr b j hba hbt
  have hchain3 : PageEntry.points_to_table 2 (mB.mem t2 (get_pt2_index v)) = true →
      t1 = PageEntry.get_addr (mB.mem t2 (get_pt2_index v)) →
      t1 < m.falloc.start ∧ t1 ≠ pt.table ∧ t1 ≠ t3 ∧ t1 ≠ t2 := by
    intro hpt2B hta1B
    obtain ⟨hBA, hAm⟩ := hold32 hpt2B
    have hpt2m : PageEntry.points_to_table 2 (m.mem t2 (get_pt2_index v)) = true := by
      rw [← hAm, ← hBA]
      exact hpt2B
    have hta1m : t1 = PageEntry.get_addr (m.mem t2 (get_pt2_index v)) := by
      rw [← hAm, ← hBA]
      exact hta1B
    rcases hsplit2 with ⟨heq2, hpt3A, hta2A⟩ | ⟨_, _, _, _, hzr2, _⟩
    · rw [hAm] at hpt3A hta2A
      rcases hsplit1 with ⟨heq, hpt, hta⟩ | ⟨_, _, _, _, hzr, _⟩
      · have hw1 : PageTable.get_table_mut 2 t2 m (get_pt2_index v) = some t1 := by
          unfold PageTable.get_table_mut
          simp [hpt2m, hta1m]
        exact ((hold3 _ (hw3of1 hpt hta)).2.2 _ (hw2of2 hpt3A hta2A)).2.2.2 _ hw1
      · rw [hAm] at hzr
        rw [hzr (get_pt3_index v), PageEntry.points_zero] at hpt3A
        exact absurd hpt3A (by simp)
    · exfalso
      have hcontra := hpt2B
      rw [hzr2 (get_pt2_index v), PageEntry.points_zero] at hcontra
      exact absurd hcontra (by simp)
  have hF3disc : (PageEntry.points_to_table 2 (m.mem t2 (get_pt2_index v)) = true ∧
      t1 = PageEntry.get_addr (m.mem t2 (get_pt2_index v)) ∧
      t1 < m.falloc.start ∧
      PageTable.get_table_mut 4 pt.table m (get_pt4_index v) = some t3 ∧
      PageTable.get_table_mut 3 t3 m (get_pt3_index v) = some t2) ∨
      m.falloc.start ≤ t1 := by
    rcases hsplit3 with ⟨heq3, hpt2B, hta1B⟩ | ⟨_, hge, _⟩
    · obtain ⟨hBA, hAm⟩ := hold32 hpt2B
      have hchain := hchain3 hpt2B hta1B
      rw [hBA, hAm] at hpt2B hta1B
      rcases hsplit2 with ⟨heq2, hpt3A, hta2A⟩ | ⟨_, _, _, _, hzr2, _⟩
      · rw [hAm] at hpt3A hta2A
        rcases hsplit1 with ⟨heq, hpt, hta⟩ | ⟨_, _, _, _, hzr, _⟩
        · exact Or.inl ⟨hpt2B, hta1B, hchain.1, hw3of1 hpt hta,
            hw2of2 hpt3A hta2A⟩
        · rw [hAm] at hzr
          rw [hzr (get_pt3_index v), PageEntry.points_zero] at hpt3A
          exact absurd hpt3A (by simp)
      · exfalso
        rw [hBA, hAm] at hzr2
        rw [hzr2 (get_pt2_index v), PageEntry.points_zero] at hpt2B
        exact absurd hpt2B (by simp)
    · exact Or.inr (le_trans (le_trans hAmono hBmono) hge)
  have ht1r : t1 ≠ pt.table := by
    rcases hsplit3 with ⟨heq3, hpt2B, hta1B⟩ | ⟨_, hge, _⟩
    · exact (hchain3 hpt2B hta1B).2.1
    · omega
  have ht1t3 : t1 ≠ t3 := by
    rcases hsplit3 with ⟨heq3, hpt2B, hta1B⟩ | ⟨_, hge, _⟩
    · exact (hchain3 hpt2B hta1B).2.2.1
    · omega
  have ht1t2 : t1 ≠ t2 := by
    rcases hsplit3 with ⟨heq3, hpt2B, hta1B⟩ | ⟨_, hge, _⟩
    · exact (hchain3 hpt2B hta1B).2.2.2
    · omega
  have hF3entry : (mC.mem t2 (get_pt2_index v) = m.mem t2 (get_pt2_index v) ∧
      PageTable.get_table_mut 4 pt.table m (get_pt4_index v) = some t3 ∧
      PageTable.get_table_mut 3 t3 m (get_pt3_index v) = some t2) ∨
      mC.mem t2 (get_pt2_index v)
        = (t1 &&& PTE_ADDR_MASK) ||| (PRESENT ||| USER ||| WRITE) := by
    rcases hsplit3 with ⟨heq3, hpt2B, _⟩ | ⟨_, _, hval, _, _, _⟩
    · obtain ⟨hBA, hAm⟩ := hold32 hpt2B
      rcases hsplit2 with ⟨heq2, hpt3A, hta2A⟩ | ⟨_, _, _, _, hzr2, _⟩
      · rw [hAm] at hpt3A hta2A
        rcases hsplit1 with ⟨heq, hpt, hta⟩ | ⟨_, _, _, _, hzr, _⟩
        · exact Or.inl ⟨by rw [heq3, hBA, hAm], hw3of1 hpt hta,
            hw2of2 hpt3A hta2A⟩
        · rw [hAm] at hzr
          rw [hzr (get_pt3_index v), PageEntry.points_zero] at hpt3A
          exact absurd hpt3A (by simp)
      · have hcontra := hpt2B
        rw [hzr2 (get_pt2_index v), PageEntry.points_zero] at hcontra
        exact absurd hcontra (by simp)
    · exact Or.inr hval
  -- final assembly
  subst hm'
  have hMfr : ∀ b j, b ≠ t1 →
      (PageTable.map_mem 1 t1 mC (get_pt1_index v) paddr flags).mem b j
        = mC.mem b j := by
    intro b j hb
    exact PageTable.map_mem_other 1 t1 mC (get_pt1_index v) paddr flags b j (Or.inl hb)
  have hq4 : (PageTable.map_mem 1 t1 mC (get_pt1_index v) paddr flags).mem
      pt.table (get_pt4_index v) = mA.mem pt.table (get_pt4_index v) := by
    rw [hMfr _ _ (Ne.symm ht1r)]
    rw [hF3frame _ _ (Ne.symm ht1r) (Or.inl (Ne.symm ht2r))]
    rw [hF2frame _ _ (Ne.symm ht2r) (Or.inl (Ne.symm ht3r))]
  have hq3 : (PageTable.map_mem 1 t1 mC (get_pt1_index v) paddr flags).mem
      t3 (get_pt3_index v) = mB.mem t3 (get_pt3_index v) := by
    rw [hMfr _ _ (Ne.symm ht1t3)]
    rw [hF3frame _ _ (Ne.symm ht1t3) (Or.inl (Ne.symm ht2t3))]
  have hq2 : (PageTable.map_mem 1 t1 mC (get_pt1_index v) paddr flags).mem
      t2 (get_pt2_index v) = mC.mem t2 (get_pt2_index v) := by
    rw [hMfr _ _ (Ne.symm ht1t2)]
  have hMfa : (PageTable.map_mem 1 t1 mC (get_pt1_index v) paddr flags).falloc
      = mC.falloc := rfl
  refine ⟨t3, t2, t1, ?_, ?_, ?_, ?_, ?_, ?_, ?_, ?_, ?_, ?_, ?_, ?_, ?_,
    ht3r, ht2r, ht2t3, ht1r, ht1t3, ht1t2, ?_, ?_, ?_, hF1disc, hF2disc, hF3disc,
    ?_, ?_, ?_, ?_, ?_, ?_⟩
  · rw [hMfa]
    omega
  · rw [hMfa]
    exact hCalign
  · rw [hMfa, hCend, hBend, hAend]
  · rw [hMfa, hCpr, hBpr, hApr]
  · rw [hq4]
    exact hE4p
  · rw [hq4]
    exact hE4a
  · rw [hq3]
    exact hE3p
  · rw [hq3]
    exact hE3a
  · rw [hq2]
    exact hE2p
  · rw [hq2]
    exact hE2a
  · rw [hMfa]
    omega
  · rw [hMfa]
    omega
  · rw [hMfa]
    exact hT1ltC
  · rw [hq4]
    exact hF1entry
  · rw [hq3]
    exact hF2entry
  · rw [hq2]
    exact hF3entry
  · -- fresh t3 is zero away from its written entry
    intro hge j hj
    rw [hMfr _ _ (Ne.symm ht1t3)]
    rw [hF3frame _ _ (Ne.symm ht1t3) (Or.inl (Ne.symm ht2t3))]
    rw [hF2frame _ _ (Ne.symm ht2t3) (Or.inr hj)]
    exact hF1zero hge j
  · intro hge j hj
    rw [hMfr _ _ (Ne.symm ht1t2)]
    rw [hF3frame _ _ (Ne.symm ht1t2) (Or.inr hj)]
    exact hF2zero hge j
  · -- root row frame
    intro j hj
    rw [hMfr _ _ (Ne.symm ht1r)]
    rw [hF3frame _ _ (Ne.symm ht1r) (Or.inl (Ne.symm ht2r))]
    rw [hF2frame _ _ (Ne.symm ht2r) (Or.inl (Ne.symm ht3r))]
    exact hF1frame _ _ (Ne.symm ht3r) (Or.inr hj)
  · -- pre-existing t3 row frame
    intro hlt j hj
    rw [hMfr _ _ (Ne.symm ht1t3)]
    rw [hF3frame _ _ (Ne.symm ht1t3) (Or.inl (Ne.symm ht2t3))]
    rw [hF2frame _ _ (Ne.symm ht2t3) (Or.inr hj)]
    rcases hsplit1 with ⟨heq, _, _⟩ | ⟨_, hge, _⟩
    · rw [heq]
    · omega
  · -- pre-existing t2 row frame
    intro hlt j hj
    rw [hMfr _ _ (Ne.symm ht1t2)]
    rw [hF3frame _ _ (Ne.symm ht1t2) (Or.inr hj)]
    have h2 : mB.mem t2 j = mA.mem t2 j := by
      rcases hsplit2 with ⟨heq2, _, _⟩ | ⟨_, hge, _⟩
      · rw [heq2]
      · exfalso
        omega
    rw [h2]
    exact hF1frame _ _ ht2t3 (Or.inl ht2r)
  · -- untouched tables
    intro b j hbr hbt3 hbt2 hbt1
    rw [hMfr _ _ hbt1]
    rw [hF3frame _ _ hbt1 (Or.inl hbt2)]
    rw [hF2frame _ _ hbt2 (Or.inl hbt3)]
    exact hF1frame _ _ hbt3 (Or.inl hbr)


/-! ### C6: passage-flag propagation -/

/-- A property of the success value of an `Except` computation; trivially
true when the computation fails fatally (a panic produces no state). -/
def ExceptOk {ε α : Type} (x : Except ε α) (P : α → Prop) : Prop :=
  match x with
  | .ok a => P a
  | .error _ => True

/-- All table-pointing entries already present on the walk of `v` carry the
full passage flags (`PRESENT | USER | WRITE`, the low three bits). -/
def pathFlagsOk (m : Machine) (r v : Nat) : Prop :=
  (PageEntry.points_to_table 4 (m.mem r (get_pt4_index v)) = true →
    m.mem r (get_pt4_index v) &&& 7 = 7) ∧
  ∀ t3, PageTable.get_table_mut 4 r m (get_pt4_index v) = some t3 →
    (PageEntry.points_to_table 3 (m.mem t3 (get_pt3_index v)) = true →
      m.mem t3 (get_pt3_index v) &&& 7 = 7) ∧
    ∀ t2, PageTable.get_table_mut 3 t3 m (get_pt3_index v) = some t2 →
      PageEntry.points_to_table 2 (m.mem t2 (get_pt2_index v)) = true →
        m.mem t2 (get_pt2_index v) &&& 7 = 7

/-- Every non-terminal (table-pointing) entry on the walk of `v` from root `r`
is present and carries the full passage flags `PRESENT | USER | WRITE`. -/
def passageOk (m : Machine) (r v : Nat) : Prop :=
  PageEntry.points_to_table 4 (m.mem r (get_pt4_index v)) = true ∧
  m.mem r (get_pt4_index v) &&& 7 = 7 ∧
  PageEntry.points_to_table 3
    (m.mem (PageEntry.get_addr (m.mem r (get_pt4_index v)))
      (get_pt3_index v)) = true ∧
  m.mem (PageEntry.get_addr (m.mem r (get_pt4_index v)))
    (get_pt3_index v) &&& 7 = 7 ∧
  PageEntry.points_to_table 2
    (m.mem (PageEntry.get_addr
        (m.mem (PageEntry.get_addr (m.mem r (get_pt4_index v)))
          (get_pt3_index v)))
      (get_pt2_index v)) = true ∧
  m.mem (PageEntry.get_addr
      (m.mem (PageEntry.get_addr (m.mem r (get_pt4_index v)))
        (get_pt3_index v)))
    (get_pt2_index v) &&& 7 = 7

/-- C6: after any successful `map_to_4k`, for any flags, every present
non-terminal entry on the walked path from the root to the terminal level-1
entry has the `PRESENT`, `USER` and `WRITE` bits all set. -/
theorem PT4.map_to_4k_passage_flags (pt : PT4) (m : Machine)
    (v paddr flags : Nat)
    (halign : m.falloc.start % PAGE_SIZE = 0)
    (hend : m.falloc.«end» ≤ 2 ^ 52)
    (hwf : PathWf m pt.table v)
    (hflags : pathFlagsOk m pt.table v) :
    ExceptOk (pt.map_to_4k m v paddr flags)
      (fun m' => passageOk m' pt.table v) := by
  cases hres : pt.map_to_4k m v paddr flags with
  | error e => exact trivial
  | ok m' =>
    obtain ⟨t3, t2, t1, _, _, _, _, hp4, ha4, hp3, ha3, hp2, ha2,
      _, _, _, _, _, _, _, _, _, hf4, hf3, hf2, _, _, _, _, _, _, _, _, _⟩ :=
      PT4.map4k_post pt m v paddr flags m' halign hend hwf hres
    show passageOk m' pt.table v
    unfold passageOk
    rw [ha4, ha3]
    refine ⟨hp4, ?_, hp3, ?_, hp2, ?_⟩
    · rcases hf4 with he | he
      · rw [he]
        refine hflags.1 ?_
        rw [← he]
        exact hp4
      · rw [he]
        exact fresh_low_bits t3
    · rcases hf3 with ⟨he, hw3⟩ | he
      · rw [he]
        refine (hflags.2 t3 hw3).1 ?_
        rw [← he]
        exact hp3
      · rw [he]
        exact fresh_low_bits t2
    · rcases hf2 with ⟨he, hw3, hw2⟩ | he
      · rw [he]
        refine (hflags.2 t3 hw3).2 t2 hw2 ?_
        rw [← he]
        exact hp2
      · rw [he]
        exact fresh_low_bits t1

/-! ### C9: table reuse and distinct tables -/

/-- A successful `get_table_mut` means the entry points to a table whose
address it returns. -/
lemma PageTable.gtm_points (L a : Nat) (m : Machine) (i t : Nat)
    (h : PageTable.get_table_mut L a m i = some t) :
    PageEntry.points_to_table L (m.mem a i) = true ∧
      t = PageEntry.get_addr (m.mem a i) := by
  unfold PageTable.get_table_mut at h
  by_cases hp : PageEntry.points_to_table L (m.mem a i) = true
  · simp only [hp, if_pos] at h
    injection h with h1
    exact ⟨hp, h1.symm⟩
  · simp only [hp] at h
    exact absurd h (by simp)

/-- An absent entry does not point to a table. -/
lemma absent_not_points (L e : Nat) (habs : PageEntry.present e = false) :
    PageEntry.points_to_table L e = false := by
  unfold PageEntry.points_to_table
  rw [habs]
  rfl

/-- A walk from a root whose relevant entry is absent is trivially
well-placed. -/
lemma PathWf_of_absent (m : Machine) (r v : Nat) (hr : r < m.falloc.start)
    (habs : PageEntry.present (m.mem r (get_pt4_index v)) = false) :
    PathWf m r v := by
  refine ⟨hr, ?_⟩
  intro t3 h
  obtain ⟨hpt, _⟩ := PageTable.gtm_points 4 r m _ t3 h
  rw [absent_not_points 4 _ habs] at hpt
  exact absurd hpt (by simp)

/-- Part 1 of C9: a second `map_to_4k` whose address shares the level-4/3/2
indices of a previously mapped address walks the same tables and consumes no
frame. -/
lemma PT4.map4k_reuse (pt : PT4) (m : Machine) (v1 v2 p1 f1 p2 f2 : Nat)
    (halign : m.falloc.start % PAGE_SIZE = 0)
    (hend : m.falloc.«end» ≤ 2 ^ 52)
    (hwf : PathWf m pt.table v1)
    (h4 : get_pt4_index v1 = get_pt4_index v2)
    (h3 : get_pt3_index v1 = get_pt3_index v2)
    (h2 : get_pt2_index v1 = get_pt2_index v2) :
    ExceptOk (pt.map_to_4k m v1 p1 f1) (fun m1 =>
      ∃ m2, pt.map_to_4k m1 v2 p2 f2 = .ok m2 ∧ m2.falloc = m1.falloc ∧
        walkT2 m2 pt.table v2 = walkT2 m2 pt.table v1) := by
  cases hres : pt.map_to_4k m v1 p1 f1 with
  | error e => exact trivial
  | ok m1 =>
  show ∃ m2, _
  obtain ⟨t3, t2, t1, _, _, _, _, hp4, ha4, hp3, ha3, hp2, ha2,
    _, _, _, _, _, _, _, _, _, _, _, _, _, _, _, _, _, _, _, _, _⟩ :=
    PT4.map4k_post pt m v1 p1 f1 m1 halign hend hwf hres
  have hg4 : PageTable.get_new_table 4 pt.table m1 (get_pt4_index v2)
      = .ok (t3, m1) := by
    have h := PageTable.gnt_present_points 4 pt.table m1 (get_pt4_index v1) hp4
    rw [ha4] at h
    rw [← h4]
    exact h
  have hg3 : PageTable.get_new_table 3 t3 m1 (get_pt3_index v2)
      = .ok (t2, m1) := by
    have h := PageTable.gnt_present_points 3 t3 m1 (get_pt3_index v1) hp3
    rw [ha3] at h
    rw [← h3]
    exact h
  have hg2 : PageTable.get_new_table 2 t2 m1 (get_pt2_index v2)
      = .ok (t1, m1) := by
    have h := PageTable.gnt_present_points 2 t2 m1 (get_pt2_index v1) hp2
    rw [ha2] at h
    rw [← h2]
    exact h
  refine ⟨PageTable.map_mem 1 t1 m1 (get_pt1_index v2) p2 f2, ?_, rfl, ?_⟩
  · unfold PT4.map_to_4k
    rw [hg4, exceptBindOk]
    dsimp only
    rw [hg3, exceptBindOk]
    dsimp only
    rw [hg2, exceptBindOk]
    dsimp only
    rfl
  · unfold walkT2 walkT3
    rw [← h4, ← h3]

/-- Part 2 of the amended C9: two addresses freshly mapped in disjoint 1 GiB
regions end up walked through distinct level-2 tables backed by distinct
frames. -/
lemma PT4.map4k_distinct (pt : PT4) (m : Machine) (v1 v2 p1 f1 p2 f2 : Nat)
    (halign : m.falloc.start % PAGE_SIZE = 0)
    (hend : m.falloc.«end» ≤ 2 ^ 52)
    (hr : pt.table < m.falloc.start)
    (habs1 : PageEntry.present (m.mem pt.table (get_pt4_index v1)) = false)
    (habs2 : PageEntry.present (m.mem pt.table (get_pt4_index v2)) = false)
    (hne : ¬(get_pt4_index v1 = get_pt4_index v2 ∧
      get_pt3_index v1 = get_pt3_index v2)) :
    ExceptOk (pt.map_to_4k m v1 p1 f1) (fun m1 =>
      ExceptOk (pt.map_to_4k m1 v2 p2 f2) (fun m2 =>
        ∃ a b, walkT2 m2 pt.table v1 = some a ∧
          walkT2 m2 pt.table v2 = some b ∧ a ≠ b)) := by
  cases hres1 : pt.map_to_4k m v1 p1 f1 with
  | error e => exact trivial
  | ok m1 =>
  show ExceptOk (pt.map_to_4k m1 v2 p2 f2) (fun m2 =>
    ∃ a b, walkT2 m2 pt.table v1 = some a ∧
      walkT2 m2 pt.table v2 = some b ∧ a ≠ b)
  cases hres2 : pt.map_to_4k m1 v2 p2 f2 with
  | error e => exact trivial
  | ok m2 =>
  show ∃ a b, walkT2 m2 pt.table v1 = some a ∧
    walkT2 m2 pt.table v2 = some b ∧ a ≠ b
  have hwf1 : PathWf m pt.table v1 := PathWf_of_absent m pt.table v1 hr habs1
  obtain ⟨t3a, t2a, t1a, hmono1, halign1, hend1, hpr1, hp4a, ha4a, hp3a, ha3a,
    hp2a, ha2a, hb3a, hb2a, hb1a, ht3ra, ht2ra, ht2t3a, ht1ra, ht1t3a, ht1t2a,
    hf4a, hf3a, hf2a, hd1a, hd2a, hd3a, hz3a, hz2a, hfrRa, hfrT3a, hfrT2a,
    hfrBa⟩ := PT4.map4k_post pt m v1 p1 f1 m1 halign hend hwf1 hres1
  have hfr3a : m.falloc.start ≤ t3a := by
    rcases hd1a with ⟨hpt, _, _⟩ | ⟨hge, _⟩
    · have hc := PageEntry.present_of_points _ _ hpt
      rw [habs1] at hc
      exact absurd hc (by simp)
    · exact hge
  by_cases h44 : get_pt4_index v1 = get_pt4_index v2
  · -- same level-4 index, different level-3 index
    have h33 : get_pt3_index v1 ≠ get_pt3_index v2 := fun hc => hne ⟨h44, hc⟩
    have he4 : PageEntry.points_to_table 4
        (m1.mem pt.table (get_pt4_index v2)) = true := by
      rw [← h44]
      exact hp4a
    have he4a : PageEntry.get_addr (m1.mem pt.table (get_pt4_index v2))
        = t3a := by
      rw [← h44]
      exact ha4a
    have hzero32 : m1.mem t3a (get_pt3_index v2) = 0 :=
      hz3a hfr3a _ (Ne.symm h33)
    have hwf2 : PathWf m1 pt.table v2 := by
      refine ⟨by omega, ?_⟩
      intro t3' hgt
      obtain ⟨hpt', hta'⟩ := PageTable.gtm_points 4 pt.table m1 _ t3' hgt
      have ht3' : t3' = t3a := by rw [hta', he4a]
      rw [ht3']
      refine ⟨hb3a, ht3ra, ?_⟩
      intro t2' hgt2
      obtain ⟨hpt2', _⟩ := PageTable.gtm_points 3 t3a m1 _ t2' hgt2
      rw [hzero32, PageEntry.points_zero] at hpt2'
      exact absurd hpt2' (by simp)
    obtain ⟨t3b, t2b, t1b, hmono2, halign2, hend2, hpr2, hp4b, ha4b, hp3b,
      ha3b, hp2b, ha2b, hb3b, hb2b, hb1b, ht3rb, ht2rb, ht2t3b, ht1rb, ht1t3b,
      ht1t2b, hf4b, hf3b, hf2b, hd1b, hd2b, hd3b, hz3b, hz2b, hfrRb, hfrT3b,
      hfrT2b, hfrBb⟩ := PT4.map4k_post pt m1 v2 p2 f2 m2 halign1
        (by rw [hend1]; exact hend) hwf2 hres2
    have ht3ab : t3b = t3a := by
      rcases hd1b with ⟨_, hta, _⟩ | ⟨_, hpre⟩
      · rw [hta, he4a]
      · have hc := PageEntry.present_of_points _ _ he4
        rw [hpre] at hc
        exact absurd hc (by simp)
    have hfr2b : m1.falloc.start ≤ t2b := by
      rcases hd2b with ⟨hpt, _, _, _⟩ | hge
      · rw [ht3ab, hzero32, PageEntry.points_zero] at hpt
        exact absurd hpt (by simp)
      · exact hge
    have hwalk2v2 : walkT2 m2 pt.table v2 = some t2b := by
      unfold walkT2 walkT3
      have hg1 : PageTable.get_table_mut 4 pt.table m2 (get_pt4_index v2)
          = some t3b := by
        unfold PageTable.get_table_mut
        simp [hp4b, ha4b]
      rw [hg1]
      show PageTable.get_table_mut 3 t3b m2 (get_pt3_index v2) = some t2b
      unfold PageTable.get_table_mut
      simp [hp3b, ha3b]
    have hwalk2v1 : walkT2 m2 pt.table v1 = some t2a := by
      unfold walkT2 walkT3
      have hg1 : PageTable.get_table_mut 4 pt.table m2 (get_pt4_index v1)
          = some t3a := by
        rw [h44]
        unfold PageTable.get_table_mut
        simp [hp4b, ha4b, ht3ab]
      rw [hg1]
      show PageTable.get_table_mut 3 t3a m2 (get_pt3_index v1) = some t2a
      have hpres : m2.mem t3a (get_pt3_index v1)
          = m1.mem t3a (get_pt3_index v1) := by
        have h := hfrT3b (by rw [ht3ab]; exact hb3a) (get_pt3_index v1) h33
        rw [ht3ab] at h
        exact h
      unfold PageTable.get_table_mut
      rw [hpres]
      simp [hp3a, ha3a]
    refine ⟨t2a, t2b, hwalk2v1, hwalk2v2, ?_⟩
    omega
  · -- different level-4 indices
    have hi4ne : get_pt4_index v1 ≠ get_pt4_index v2 := h44
    have habs2' : PageEntry.present (m1.mem pt.table (get_pt4_index v2))
        = false := by
      rw [hfrRa _ (Ne.symm hi4ne)]
      exact habs2
    have hwf2 : PathWf m1 pt.table v2 :=
      PathWf_of_absent m1 pt.table v2 (by omega) habs2'
    obtain ⟨t3b, t2b, t1b, hmono2, halign2, hend2, hpr2, hp4b, ha4b, hp3b,
      ha3b, hp2b, ha2b, hb3b, hb2b, hb1b, ht3rb, ht2rb, ht2t3b, ht1rb, ht1t3b,
      ht1t2b, hf4b, hf3b, hf2b, hd1b, hd2b, hd3b, hz3b, hz2b, hfrRb, hfrT3b,
      hfrT2b, hfrBb⟩ := PT4.map4k_post pt m1 v2 p2 f2 m2 halign1
        (by rw [hend1]; exact hend) hwf2 hres2
    have hfr3b : m1.falloc.start ≤ t3b := by
      rcases hd1b with ⟨hpt, _, _⟩ | ⟨hge, _⟩
      · have hc := PageEntry.present_of_points _ _ hpt
        rw [habs2'] at hc
        exact absurd hc (by simp)
      · exact hge
    have hfr2b : m1.falloc.start ≤ t2b := by
      rcases hd2b with ⟨_, _, _, hw3⟩ | hge
      · obtain ⟨hpt, _⟩ := PageTable.gtm_points 4 pt.table m1 _ t3b hw3
        have hc := PageEntry.present_of_points _ _ hpt
        rw [habs2'] at hc
        exact absurd hc (by simp)
      · exact hge
    have hfr1b : m1.falloc.start ≤ t1b := by
      rcases hd3b with ⟨_, _, _, hw3, _⟩ | hge
      · obtain ⟨hpt, _⟩ := PageTable.gtm_points 4 pt.table m1 _ t3b hw3
        have hc := PageEntry.present_of_points _ _ hpt
        rw [habs2'] at hc
        exact absurd hc (by simp)
      · exact hge
    have hwalk2v2 : walkT2 m2 pt.table v2 = some t2b := by
      unfold walkT2 walkT3
      have hg1 : PageTable.get_table_mut 4 pt.table m2 (get_pt4_index v2)
          = some t3b := by
        unfold PageTable.get_table_mut
        simp [hp4b, ha4b]
      rw [hg1]
      show PageTable.get_table_mut 3 t3b m2 (get_pt3_index v2) = some t2b
      unfold PageTable.get_table_mut
      simp [hp3b, ha3b]
    have hwalk2v1 : walkT2 m2 pt.table v1 = some t2a := by
      unfold walkT2 walkT3
      have hg1 : PageTable.get_table_mut 4 pt.table m2 (get_pt4_index v1)
          = some t3a := by
        unfold PageTable.get_table_mut
        have he : m2.mem pt.table (get_pt4_index v1)
            = m1.mem pt.table (get_pt4_index v1) := hfrRb _ hi4ne
        rw [he]
        simp [hp4a, ha4a]
      rw [hg1]
      show PageTable.get_table_mut 3 t3a m2 (get_pt3_index v1) = some t2a
      have he3 : m2.mem t3a (get_pt3_index v1)
          = m1.mem t3a (get_pt3_index v1) := by
        apply hfrBb
        · exact ht3ra
        · omega
        · omega
        · omega
      unfold PageTable.get_table_mut
      rw [he3]
      simp [hp3a, ha3a]
    refine ⟨t2a, t2b, hwalk2v1, hwalk2v2, ?_⟩
    omega

/-! ### Concrete evaluation of fresh walks -/

/-- The machine produced by `get_new_table` when it installs a fresh table
`taddr` under entry `(a, i)`: the allocator advances, the fresh table is
zero-filled and the parent entry carries full passage flags. -/
def freshResult (a i taddr : Nat) (m : Machine) (fa' : FrameAllocator) :
    Machine :=
  { falloc := fa',
    mem := fun b j =>
      if b = a then
        (if j = i then (taddr &&& PTE_ADDR_MASK) ||| (PRESENT ||| USER ||| WRITE)
         else if b = taddr then 0 else m.mem b j)
      else if b = taddr then 0 else m.mem b j }

/-- Evaluation of `get_new_table` on an absent entry with a successful
allocation. -/
lemma PageTable.gnt_fresh_eval (L a : Nat) (m : Machine) (i : Nat) (f : Frame)
    (fa' : FrameAllocator)
    (hL : (L == 1) = false)
    (hpres : PageEntry.present (m.mem a i) = false)
    (halloc : m.falloc.alloc = some (f, fa'))
    (hmask : f.addr &&& PTE_ADDR_MASK = f.addr) :
    PageTable.get_new_table L a m i
      = .ok (f.addr, freshResult a i f.addr m fa') := by
  unfold PageTable.get_new_table
  rw [hpres]
  simp only [Bool.false_eq_true, if_false]
  unfold PageTable.new
  rw [halloc]
  dsimp only
  have hgtm : PageTable.get_table_mut L a
      (PageTable.map_table L a
        { falloc := fa', mem := fun b j => if b = f.addr then 0 else m.mem b j }
        i f.addr) i = some f.addr := by
    unfold PageTable.get_table_mut
    show (if PageEntry.points_to_table L ((PageTable.map_table L a
        { falloc := fa', mem := fun b j => if b = f.addr then 0 else m.mem b j }
        i f.addr).mem a i) = true
      then some (PageEntry.get_addr ((PageTable.map_table L a
        { falloc := fa', mem := fun b j => if b = f.addr then 0 else m.mem b j }
        i f.addr).mem a i))
      else none) = some f.addr
    have hm2ai : (PageTable.map_table L a
        { falloc := fa', mem := fun b j => if b = f.addr then 0 else m.mem b j }
        i f.addr).mem a i
        = (f.addr &&& PTE_ADDR_MASK) ||| (PRESENT ||| USER ||| WRITE) := by
      simp [PageTable.map_table, Machine.writeEntry]
    rw [hm2ai, fresh_points_to_table L f.addr hL, if_pos rfl,
      fresh_get_addr f.addr hmask]
  simp only [hgtm]
  rfl

/-- Protected regions far away from the working window of the examples. -/
def exPR : ProtectedRegions := ((0xF00000, 0xF00FFF), (0xF00000, 0xF00FFF))

/-- A concrete machine: root table at address `0` (all entries absent),
allocator window `[0x1000, 0x100000)`. -/
def exM : Machine := ⟨⟨0x1000, 0x100000, exPR⟩, fun _ _ => 0⟩

/-- State after the fresh level-3 table of the first mapping. -/
def exMA : Machine := freshResult 0 0 0x1000 exM ⟨0x2000, 0x100000, exPR⟩

/-- State after the fresh level-2 table of the first mapping. -/
def exMB : Machine := freshResult 0x1000 0 0x2000 exMA ⟨0x3000, 0x100000, exPR⟩

/-- State after the fresh level-1 table of the first mapping. -/
def exMC : Machine := freshResult 0x2000 0 0x3000 exMB ⟨0x4000, 0x100000, exPR⟩

/-- State after `map_to_4k` of virtual address `0`. -/
def exM1 : Machine := PageTable.map_mem 1 0x3000 exMC 0 0 0

/-- State after the fresh level-2 table of the second mapping. -/
def exMD : Machine := freshResult 0x1000 1 0x4000 exM1 ⟨0x5000, 0x100000, exPR⟩

/-- State after the fresh level-1 table of the second mapping. -/
def exME : Machine := freshResult 0x4000 0 0x5000 exMD ⟨0x6000, 0x100000, exPR⟩

/-- State after `map_to_4k` of virtual address `0x40000000` (1 GiB). -/
def exM2 : Machine := PageTable.map_mem 1 0x5000 exME 0 0 0

/-- Evaluation of the first concrete mapping. -/
lemma exM_map1 : PT4.map_to_4k ⟨0⟩ exM 0 0 0 = .ok exM1 := by
  have a1 : FrameAllocator.alloc ⟨0x1000, 0x100000, exPR⟩
      = some (⟨1⟩, ⟨0x2000, 0x100000, exPR⟩) := by
    rw [FrameAllocator.alloc_accept _ (by decide) (by decide)]
    rfl
  have a2 : FrameAllocator.alloc ⟨0x2000, 0x100000, exPR⟩
      = some (⟨2⟩, ⟨0x3000, 0x100000, exPR⟩) := by
    rw [FrameAllocator.alloc_accept _ (by decide) (by decide)]
    rfl
  have a3 : FrameAllocator.alloc ⟨0x3000, 0x100000, exPR⟩
      = some (⟨3⟩, ⟨0x4000, 0x100000, exPR⟩) := by
    rw [FrameAllocator.alloc_accept _ (by decide) (by decide)]
    rfl
  have g1 : PageTable.get_new_table 4 0 exM (get_pt4_index 0)
      = .ok (0x1000, exMA) := by
    have h := PageTable.gnt_fresh_eval 4 0 exM (get_pt4_index 0) ⟨1⟩
      ⟨0x2000, 0x100000, exPR⟩ (by decide) (by decide) a1 (by decide)
    exact h
  have g2 : PageTable.get_new_table 3 0x1000 exMA (get_pt3_index 0)
      = .ok (0x2000, exMB) := by
    have h := PageTable.gnt_fresh_eval 3 0x1000 exMA (get_pt3_index 0) ⟨2⟩
      ⟨0x3000, 0x100000, exPR⟩ (by decide) (by decide) a2 (by decide)
    exact h
  have g3 : PageTable.get_new_table 2 0x2000 exMB (get_pt2_index 0)
      = .ok (0x3000, exMC) := by
    have h := PageTable.gnt_fresh_eval 2 0x2000 exMB (get_pt2_index 0) ⟨3⟩
      ⟨0x4000, 0x100000, exPR⟩ (by decide) (by decide) a3 (by decide)
    exact h
  unfold PT4.map_to_4k
  rw [g1, exceptBindOk]
  dsimp only
  rw [g2, exceptBindOk]
  dsimp only
  rw [g3, exceptBindOk]
  dsimp only
  rfl

/-- Evaluation of the second concrete mapping, one 1 GiB region over. -/
lemma exM_map2 : PT4.map_to_4k ⟨0⟩ exM1 0x40000000 0 0 = .ok exM2 := by
  have a4 : FrameAllocator.alloc ⟨0x4000, 0x100000, exPR⟩
      = some (⟨4⟩, ⟨0x5000, 0x100000, exPR⟩) := by
    rw [FrameAllocator.alloc_accept _ (by decide) (by decide)]
    rfl
  have a5 : FrameAllocator.alloc ⟨0x5000, 0x100000, exPR⟩
      = some (⟨5⟩, ⟨0x6000, 0x100000, exPR⟩) := by
    rw [FrameAllocator.alloc_accept _ (by decide) (by decide)]
    rfl
  have g4 : PageTable.get_new_table 4 0 exM1 (get_pt4_index 0x40000000)
      = .ok (0x1000, exM1) := by
    have h := PageTable.gnt_present_points 4 0 exM1 (get_pt4_index 0x40000000)
      (by decide)
    rw [show PageEntry.get_addr (exM1.mem 0 (get_pt4_index 0x40000000))
      = 0x1000 from by decide] at h
    exact h
  have g5 : PageTable.get_new_table 3 0x1000 exM1 (get_pt3_index 0x40000000)
      = .ok (0x4000, exMD) := by
    have h := PageTable.gnt_fresh_eval 3 0x1000 exM1
      (get_pt3_index 0x40000000) ⟨4⟩ ⟨0x5000, 0x100000, exPR⟩
      (by decide) (by decide) a4 (by decide)
    rw [show get_pt3_index 0x40000000 = 1 from by decide] at h ⊢
    exact h
  have g6 : PageTable.get_new_table 2 0x4000 exMD (get_pt2_index 0x40000000)
      = .ok (0x5000, exME) := by
    have h := PageTable.gnt_fresh_eval 2 0x4000 exMD
      (get_pt2_index 0x40000000) ⟨5⟩ ⟨0x6000, 0x100000, exPR⟩
      (by decide) (by decide) a5 (by decide)
    exact h
  unfold PT4.map_to_4k
  rw [g4, exceptBindOk]
  dsimp only
  rw [g5, exceptBindOk]
  dsimp only
  rw [g6, exceptBindOk]
  dsimp only
  rfl

/-- C9 counterexample: virtual addresses `0` and `0x40000000` lie in disjoint
1 GiB regions (same level-4 index, different level-3 indices), both mappings
succeed, yet both addresses walk through the *same* level-3 table, the frame
at `0x1000` — the claim's "distinct level-3 tables backed by distinct frames"
fails. -/
theorem PT4.map_to_4k_shared_l3_counterexample :
    PT4.map_to_4k ⟨0⟩ exM 0 0 0 = .ok exM1 ∧
    PT4.map_to_4k ⟨0⟩ exM1 0x40000000 0 0 = .ok exM2 ∧
    get_pt4_index 0 = get_pt4_index 0x40000000 ∧
    get_pt3_index 0 ≠ get_pt3_index 0x40000000 ∧
    walkT3 exM2 0 0 = some 0x1000 ∧
    walkT3 exM2 0 0x40000000 = some 0x1000 :=
  ⟨exM_map1, exM_map2, by decide, by decide, by decide, by decide⟩

/-- C9 (amended): (1) a second `map_to_4k` sharing the level-4/3/2 indices of
an earlier one reuses the same intermediate tables, allocating no frame;
(2) two addresses freshly mapped in disjoint 1 GiB regions are walked through
distinct level-2 tables backed by distinct frames (they share the level-3
table whenever their level-4 indices coincide). -/
theorem PT4.map_to_4k_reuse_and_distinct :
    (∀ (pt : PT4) (m : Machine) (v1 v2 p1 f1 p2 f2 : Nat),
      m.falloc.start % PAGE_SIZE = 0 → m.falloc.«end» ≤ 2 ^ 52 →
      PathWf m pt.table v1 →
      get_pt4_index v1 = get_pt4_index v2 →
      get_pt3_index v1 = get_pt3_index v2 →
      get_pt2_index v1 = get_pt2_index v2 →
      ExceptOk (pt.map_to_4k m v1 p1 f1) (fun m1 =>
        ∃ m2, pt.map_to_4k m1 v2 p2 f2 = .ok m2 ∧ m2.falloc = m1.falloc ∧
          walkT2 m2 pt.table v2 = walkT2 m2 pt.table v1)) ∧
    (∀ (pt : PT4) (m : Machine) (v1 v2 p1 f1 p2 f2 : Nat),
      m.falloc.start % PAGE_SIZE = 0 → m.falloc.«end» ≤ 2 ^ 52 →
      pt.table < m.falloc.start →
      PageEntry.present (m.mem pt.table (get_pt4_index v1)) = false →
      PageEntry.present (m.mem pt.table (get_pt4_index v2)) = false →
      ¬(get_pt4_index v1 = get_pt4_index v2 ∧
        get_pt3_index v1 = get_pt3_index v2) →
      ExceptOk (pt.map_to_4k m v1 p1 f1) (fun m1 =>
        ExceptOk (pt.map_to_4k m1 v2 p2 f2) (fun m2 =>
          ∃ a b, walkT2 m2 pt.table v1 = some a ∧
            walkT2 m2 pt.table v2 = some b ∧ a ≠ b))) :=
  ⟨fun pt m v1 v2 p1 f1 p2 f2 h1 h2 h3 h4 h5 h6 =>
    PT4.map4k_reuse pt m v1 v2 p1 f1 p2 f2 h1 h2 h3 h4 h5 h6,
   fun pt m v1 v2 p1 f1 p2 f2 h1 h2 h3 h4 h5 h6 =>
    PT4.map4k_distinct pt m v1 v2 p1 f1 p2 f2 h1 h2 h3 h4 h5 h6⟩

/-- Witness for C9's amended claim: both conjuncts applied at concrete
machines with their hypotheses discharged. -/
theorem PT4.map_to_4k_reuse_and_distinct_witness :
    ExceptOk (PT4.map_to_4k ⟨0⟩ exM 0 0 0) (fun m1 =>
      ∃ m2, PT4.map_to_4k ⟨0⟩ m1 0 0 0 = .ok m2 ∧ m2.falloc = m1.falloc ∧
        walkT2 m2 (0 : Nat) 0 = walkT2 m2 (0 : Nat) 0) ∧
    ExceptOk (PT4.map_to_4k ⟨0⟩ exM 0 0 0) (fun m1 =>
      ExceptOk (PT4.map_to_4k ⟨0⟩ m1 0x40000000 0 0) (fun m2 =>
        ∃ a b, walkT2 m2 (0 : Nat) 0 = some a ∧
          walkT2 m2 (0 : Nat) 0x40000000 = some b ∧ a ≠ b)) :=
  ⟨PT4.map_to_4k_reuse_and_distinct.1 ⟨0⟩ exM 0 0 0 0 0 0 (by decide)
      (by decide) (PathWf_of_absent exM 0 0 (by decide) (by decide))
      rfl rfl rfl,
   PT4.map_to_4k_reuse_and_distinct.2 ⟨0⟩ exM 0 0x40000000 0 0 0 0
      (by decide) (by decide) (by decide) (by decide) (by decide)
      (by decide)⟩

/-- Witness for C6 on a concrete machine with an absent root entry. -/
theorem PT4.map_to_4k_passage_flags_witness :
    ExceptOk (PT4.map_to_4k ⟨0⟩ exM 0 0x7000 0)
      (fun m' => passageOk m' (0 : Nat) 0) :=
  PT4.map_to_4k_passage_flags ⟨0⟩ exM 0 0x7000 0 (by decide) (by decide)
    (PathWf_of_absent exM 0 0 (by decide) (by decide))
    ⟨fun h => by
      rw [show exM.mem 0 (get_pt4_index 0) = 0 from rfl,
        PageEntry.points_zero] at h
      exact absurd h (by simp),
     fun t3 h => by
      obtain ⟨hpt, _⟩ := PageTable.gtm_points 4 0 exM _ t3 h
      rw [show exM.mem 0 (get_pt4_index 0) = 0 from rfl,
        PageEntry.points_zero] at hpt
      exact absurd hpt (by simp)⟩
